import Mathlib

/-!
Verification of the Shire compiler front end (shire-core): a shallow embedding
of the expression/statement evaluator (src/shire-core/src/ast/shire_expression.rs,
front_matter_type.rs, pattern_action_fun.rs) and of the nom-based parser
(src/shire-core/src/parser.rs), together with theorems settling the frozen
claims about the natural-language specification.

Modelling conventions:
* Rust `String` / `&str` are Lean `String`; where character-level reasoning is
  needed we work on `String.data : List Char`.  Rust's byte-wise lexicographic
  order on UTF-8 strings coincides with code-point lexicographic order, which
  is what we embed.
* Rust `HashMap<String, V>` used by the parser is modelled as an association
  list with an insert-or-replace operation (`hmInsert`); only lookup and
  insertion are observable in the code under verification.
* The evaluation scope `HashMap<String, String>` is modelled as a function
  `String → Option String` (only `get` is used on it).
* `Box<dyn Any>` evaluator results are modelled by the closed inductive
  `AnyVal` enumerating every concrete type the code ever boxes;
  `downcast_ref::<bool>` becomes `AnyVal.downcastBool`.
* Fallible Rust functions returning `Result<_, String>` are modelled with an
  explicit outcome type; Rust panics (`panic!`, `.unwrap()` on `None`/`Err`)
  are modelled by a distinct `panicked` outcome, never conflated with the
  typed error case.
* The `regex` crate is external to the repository; evaluator functions take a
  regex engine `rm : String → Option (String → Bool)` as a parameter
  (`none` models a pattern that fails to compile).  No claim depends on the
  engine's behaviour.
-/

namespace Shire

/-- Scope of variable bindings passed to the evaluator; models
`&HashMap<String, String>` through its only used operation, `get`. -/
def Scope : Type := String → Option String

/-- Operator kinds, from `enum OperatorType` in shire_expression.rs. -/
inductive OperatorType where
  | Or | And | Not
  | Equal | NotEqual
  | LessThan | GreaterThan | LessEqual | GreaterEqual
  deriving DecidableEq, Repr

/-- Embedding of `OperatorType::from_str` (shire_expression.rs). -/
def OperatorType.fromStr (operator : String) : Except String OperatorType :=
  match operator with
  | "||" => .ok .Or
  | "&&" => .ok .And
  | "!" => .ok .Not
  | "==" => .ok .Equal
  | "!=" => .ok .NotEqual
  | "<" => .ok .LessThan
  | ">" => .ok .GreaterThan
  | "<=" => .ok .LessEqual
  | ">=" => .ok .GreaterEqual
  | _ => .error ("Invalid operator: " ++ operator)

/-- Embedding of `impl Statement for OperatorType`'s `display`. -/
def OperatorType.display : OperatorType → String
  | .Or => "||"
  | .And => "&&"
  | .Not => "!"
  | .Equal => "=="
  | .NotEqual => "!="
  | .LessThan => "<"
  | .GreaterThan => ">"
  | .LessEqual => "<="
  | .GreaterEqual => ">="

/-- String operator kinds, from `enum StringOperator`. -/
inductive StringOperator where
  | Contains | StartsWith | EndsWith | Matches
  deriving DecidableEq, Repr

/-- Embedding of `impl Statement for StringOperator`'s `display`. -/
def StringOperator.display : StringOperator → String
  | .Contains => "contains"
  | .StartsWith => "startsWith"
  | .EndsWith => "endsWith"
  | .Matches => "matches"

/-- Placeholder unit struct `VariableElement` of pattern_action_fun.rs. -/
inductive VariableElement where
  | mk
  deriving DecidableEq, Repr

/-- Placeholder unit struct `Statement` of pattern_action_fun.rs (distinct from
the `Statement` trait of shire_expression.rs). -/
inductive StatementPlaceholder where
  | mk
  deriving DecidableEq, Repr

/-- Placeholder unit struct `CaseKeyValue` of pattern_action_fun.rs. -/
inductive CaseKeyValuePlaceholder where
  | mk
  deriving DecidableEq, Repr

/-- Pattern-action function catalogue, from `enum PatternActionFunc` in
pattern_action_fun.rs.  The `Searching.threshold` field is `f64` in the
source; it is carried as `Float` and never computed with. -/
inductive PatternActionFunc where
  | Prompt (message : String)
  | Grep (patterns : List String)
  | Sed (pattern : String) (replacements : String) (is_regex : Bool)
  | Sort (arguments : List String)
  | Uniq (texts : List String)
  | Head (number : Nat)
  | Tail (number : Nat)
  | Xargs (vars : List String)
  | Print (texts : List String)
  | Cat (paths : List String)
  | From (vars : List VariableElement)
  | Where (statement : StatementPlaceholder)
  | Select (statements : List StatementPlaceholder)
  | ExecuteShire (filename : String) (variable_names : List String)
  | Notify (message : String)
  | CaseMatch (key_value : List CaseKeyValuePlaceholder)
  | Splitting (paths : List String)
  | Embedding (entries : List String)
  | Searching (text : String) (threshold : Float)
  | Caching (text : String)
  | Reranking (type_ : String)
  | Redact (strategy : String)
  | Crawl (urls : List String)
  | Capture (file_name : String) (node_type : String)
  | Thread (file_name : String) (variable_names : List String)
  | JsonPath (obj : Option String) (path : String)
  | ToolchainFunction (func_name : String) (args : List String)

/-- Left and right double-quote as a one-character string. -/
def dq : String := "\""

/-- Literal opening brace, written via an escape to keep it out of
interpolation position. -/
def lbrace : String := "\x7b"

/-- Literal closing brace. -/
def rbrace : String := "\x7d"

/-- Join a list of strings with a separator; models `Vec::join`. -/
def joinSep (sep : String) : List String → String
  | [] => ""
  | [x] => x
  | x :: xs => x ++ sep ++ joinSep sep xs

end Shire

namespace Shire

/-- Struct `Processor` of front_matter_type.rs (a named function reference). -/
structure FMProcessor where
  func_name : String
  deriving DecidableEq, Repr

/-- Struct `RuleBasedPatternAction` of front_matter_type.rs. -/
structure RuleBasedPatternAction where
  pattern : String
  processors : List FMProcessor
  deriving DecidableEq, Repr

mutual

/-- Value model, from `enum FrontMatterType` in front_matter_type.rs.
`OBJECT` and `CASE_MATCH` carry `HashMap<String, FrontMatterType>` in the
source, modelled as association lists.  `QUERY_STATEMENT` inlines the fields
of `ShirePsiQueryStatement` (from, where_clause, select). -/
inductive FrontMatterType where
  | STRING (value : String)
  | NUMBER (value : Int)
  | DATE (value : String)
  | BOOLEAN (value : Bool)
  | ERROR (value : String)
  | EMPTY
  | ARRAY (value : List FrontMatterType)
  | OBJECT (value : List (String × FrontMatterType))
  | PATTERN (value : RuleBasedPatternAction)
  | CASE_MATCH (value : List (String × FrontMatterType))
  | VARIABLE (value : String)
  | EXPRESSION (statement : StatementType)
  | IDENTIFIER (value : String)
  | QUERY_STATEMENT (from_ : List VariableElement) (where_clause : StatementType)
      (select : List StatementType)

/-- Statement model, from `enum StatementType` in shire_expression.rs.  The
wrapper structs are inlined: `operator` carries `Operator.type_`,
`stringOperator` carries `StringOperatorStatement.type_`, `comparison`
carries `Comparison{left, operator.type_, right}`, and so on. -/
inductive StatementType where
  | operator (type_ : OperatorType)
  | stringOperator (type_ : StringOperator)
  | comparison (left : FrontMatterType) (op : OperatorType) (right : FrontMatterType)
  | stringComparison (var : String) (op : StringOperator) (value : String)
  | logicalExpression (left : StatementType) (op : OperatorType) (right : StatementType)
  | notExpression (operand : StatementType)
  | methodCall (object_name : FrontMatterType) (method_name : FrontMatterType)
      (arguments : Option (List FrontMatterType))
  | value (value : FrontMatterType)
  | processor (processors : List PatternActionFunc)
  | caseKeyValue (key : FrontMatterType) (val : FrontMatterType)
  | conditionCase (conditions : List FrontMatterType) (cases : List FrontMatterType)

end

/-- Debug rendering of a `bool`, as Rust's `Display`/`Debug`. -/
def boolStr (b : Bool) : String := if b then "true" else "false"

/-- Rendering of an `i32`, as Rust `to_string`. -/
def intStr (n : Int) : String := toString n

/-- Display rendering of a `PatternActionFunc` (impl Display in
pattern_action_fun.rs): `ToolchainFunction` renders as a call, every other
variant uses the derived Debug form, modelled here up to string escapes. -/
def PatternActionFunc.toStr : PatternActionFunc → String
  | .ToolchainFunction func_name args => func_name ++ "(" ++ joinSep ", " args ++ ")"
  | .Prompt m => "Prompt " ++ lbrace ++ " message: " ++ dq ++ m ++ dq ++ " " ++ rbrace
  | .Grep ps => "Grep " ++ lbrace ++ " patterns: " ++ dbgStrList ps ++ " " ++ rbrace
  | .Sed p r ir => "Sed " ++ lbrace ++ " pattern: " ++ dq ++ p ++ dq ++ ", replacements: "
      ++ dq ++ r ++ dq ++ ", is_regex: " ++ boolStr ir ++ " " ++ rbrace
  | .Sort as_ => "Sort " ++ lbrace ++ " arguments: " ++ dbgStrList as_ ++ " " ++ rbrace
  | .Uniq ts => "Uniq " ++ lbrace ++ " texts: " ++ dbgStrList ts ++ " " ++ rbrace
  | .Head n => "Head " ++ lbrace ++ " number: " ++ toString n ++ " " ++ rbrace
  | .Tail n => "Tail " ++ lbrace ++ " number: " ++ toString n ++ " " ++ rbrace
  | .Xargs vs => "Xargs " ++ lbrace ++ " variables: " ++ dbgStrList vs ++ " " ++ rbrace
  | .Print ts => "Print " ++ lbrace ++ " texts: " ++ dbgStrList ts ++ " " ++ rbrace
  | .Cat ps => "Cat " ++ lbrace ++ " paths: " ++ dbgStrList ps ++ " " ++ rbrace
  | .From vs => "From " ++ lbrace ++ " variables: ["
      ++ joinSep ", " (vs.map fun _ => "VariableElement") ++ "] " ++ rbrace
  | .Where _ => "Where " ++ lbrace ++ " statement: Statement " ++ rbrace
  | .Select ss => "Select " ++ lbrace ++ " statements: ["
      ++ joinSep ", " (ss.map fun _ => "Statement") ++ "] " ++ rbrace
  | .ExecuteShire f vns => "ExecuteShire " ++ lbrace ++ " filename: " ++ dq ++ f ++ dq
      ++ ", variable_names: " ++ dbgStrList vns ++ " " ++ rbrace
  | .Notify m => "Notify " ++ lbrace ++ " message: " ++ dq ++ m ++ dq ++ " " ++ rbrace
  | .CaseMatch kvs => "CaseMatch " ++ lbrace ++ " key_value: ["
      ++ joinSep ", " (kvs.map fun _ => "CaseKeyValue") ++ "] " ++ rbrace
  | .Splitting ps => "Splitting " ++ lbrace ++ " paths: " ++ dbgStrList ps ++ " " ++ rbrace
  | .Embedding es => "Embedding " ++ lbrace ++ " entries: " ++ dbgStrList es ++ " " ++ rbrace
  | .Searching t th => "Searching " ++ lbrace ++ " text: " ++ dq ++ t ++ dq
      ++ ", threshold: " ++ toString th ++ " " ++ rbrace
  | .Caching t => "Caching " ++ lbrace ++ " text: " ++ dq ++ t ++ dq ++ " " ++ rbrace
  | .Reranking t => "Reranking " ++ lbrace ++ " type: " ++ dq ++ t ++ dq ++ " " ++ rbrace
  | .Redact s => "Redact " ++ lbrace ++ " strategy: " ++ dq ++ s ++ dq ++ " " ++ rbrace
  | .Crawl us => "Crawl " ++ lbrace ++ " urls: " ++ dbgStrList us ++ " " ++ rbrace
  | .Capture f nt => "Capture " ++ lbrace ++ " file_name: " ++ dq ++ f ++ dq
      ++ ", node_type: " ++ dq ++ nt ++ dq ++ " " ++ rbrace
  | .Thread f vns => "Thread " ++ lbrace ++ " file_name: " ++ dq ++ f ++ dq
      ++ ", variable_names: " ++ dbgStrList vns ++ " " ++ rbrace
  | .JsonPath obj path => "JsonPath " ++ lbrace ++ " obj: "
      ++ (match obj with | none => "None" | some o => "Some(" ++ dq ++ o ++ dq ++ ")")
      ++ ", path: " ++ dq ++ path ++ dq ++ " " ++ rbrace
where
  /-- Debug rendering of a `Vec<String>`, up to string escapes. -/
  dbgStrList (xs : List String) : String :=
    "[" ++ joinSep ", " (xs.map fun s => dq ++ s ++ dq) ++ "]"

end Shire

namespace Shire

/-- Debug name of an `OperatorType` variant (derived Debug). -/
def OperatorType.debugName : OperatorType → String
  | .Or => "Or" | .And => "And" | .Not => "Not"
  | .Equal => "Equal" | .NotEqual => "NotEqual"
  | .LessThan => "LessThan" | .GreaterThan => "GreaterThan"
  | .LessEqual => "LessEqual" | .GreaterEqual => "GreaterEqual"

/-- Debug name of a `StringOperator` variant (derived Debug). -/
def StringOperator.debugName : StringOperator → String
  | .Contains => "Contains" | .StartsWith => "StartsWith"
  | .EndsWith => "EndsWith" | .Matches => "Matches"

/-- Derived Debug rendering of a `PatternActionFunc` (up to string escapes);
for every variant except `ToolchainFunction` it coincides with `toStr`. -/
def PatternActionFunc.debugFmt : PatternActionFunc → String
  | .ToolchainFunction func_name args => "ToolchainFunction " ++ lbrace ++ " func_name: "
      ++ dq ++ func_name ++ dq ++ ", args: ["
      ++ joinSep ", " (args.map fun s => dq ++ s ++ dq) ++ "] " ++ rbrace
  | f => f.toStr

/-- Display entries of a `CASE_MATCH` map (front_matter_type.rs lines 46-62):
each entry renders its key and, when the value is a `PATTERN`, the pipeline of
processor names joined with bars. -/
def caseMatchEntry (kv : String × FrontMatterType) : String :=
  let processors := match kv.2 with
    | .PATTERN p => joinSep " | " (p.processors.map FMProcessor.func_name)
    | _ => ""
  dq ++ kv.1 ++ dq ++ " " ++ lbrace ++ " " ++ processors ++ " " ++ rbrace

/-- Display of a `ShirePsiQueryStatement` (its `fmt::Display` impl), which
renders placeholders rather than recursing. -/
def queryDisplay (from_ : List VariableElement) (select : List StatementType) : String :=
  "from " ++ lbrace ++ "\n    "
    ++ joinSep ", " (from_.map fun _ => "VariableElement")
    ++ "\n" ++ rbrace ++ "\nwhere " ++ lbrace ++ "\n    Statement\n" ++ rbrace
    ++ "\nselect " ++ joinSep ", " (select.map fun _ => "Statement")

mutual

/-- Embedding of `FrontMatterType::display` (front_matter_type.rs). -/
def FrontMatterType.display : FrontMatterType → String
  | .STRING v => dq ++ v ++ dq
  | .NUMBER v => intStr v
  | .DATE v => v
  | .BOOLEAN v => boolStr v
  | .ERROR v => v
  | .EMPTY => ""
  | .ARRAY vs => "[" ++ joinSep ", " (displayList vs) ++ "]"
  | .OBJECT vs => lbrace ++ joinSep ", " (displayObjEntries vs) ++ rbrace
  | .PATTERN p => p.pattern ++ " -> " ++ joinSep ", " (p.processors.map FMProcessor.func_name)
  | .CASE_MATCH vs =>
      "case " ++ dq ++ "$0" ++ dq ++ " " ++ lbrace ++ "\n"
        ++ joinSep "\n" (vs.map caseMatchEntry) ++ "\n" ++ rbrace
  | .VARIABLE v => "$" ++ v
  | .EXPRESSION st => st.display
  | .IDENTIFIER v => v
  | .QUERY_STATEMENT from_ _ select => queryDisplay from_ select

/-- Rendering of the elements of an `ARRAY`. -/
def displayList : List FrontMatterType → List String
  | [] => []
  | x :: xs => x.display :: displayList xs

/-- Rendering of the entries of an `OBJECT`. -/
def displayObjEntries : List (String × FrontMatterType) → List String
  | [] => []
  | (k, v) :: xs => (dq ++ k ++ dq ++ ": " ++ v.display) :: displayObjEntries xs

/-- Embedding of `Statement::display` for `StatementType`
(shire_expression.rs lines 45-113).  `CaseKeyValue` and `ConditionCase` fall
into the catch-all arm of the source `match`. -/
def StatementType.display : StatementType → String
  | .operator op => op.display
  | .stringOperator op => op.display
  | .comparison l op r =>
      l.display ++ " " ++ op.display ++ " " ++ r.display
  | .stringComparison v op value => v ++ " " ++ op.display ++ " " ++ value
  | .logicalExpression l op r =>
      l.display ++ " " ++ op.display ++ " " ++ r.display
  | .notExpression s => "!" ++ s.display
  | .methodCall object_name method_name arguments =>
      let parameters :=
        (Option.map (fun args => joinSep ", " (argsDebugList args)) arguments).getD ""
      let formatted_parameters :=
        if parameters = "" then "" else "(" ++ parameters ++ ")"
      let dot_with_target :=
        if method_name.display = "" then "" else "." ++ method_name.display
      object_name.display ++ dot_with_target ++ formatted_parameters
  | .value v => v.display
  | .processor ps => joinSep " | " (ps.map PatternActionFunc.toStr)
  | .caseKeyValue _ _ => "Unsupported statement type"
  | .conditionCase _ _ => "Unsupported statement type"

/-- Rendering of method-call arguments in `StatementType::display`:
string arguments are taken literally, others use the derived Debug form. -/
def argsDebugList : List FrontMatterType → List String
  | [] => []
  | x :: xs =>
      (match x with
        | .STRING s => s
        | y => y.debugFmt) :: argsDebugList xs

/-- Derived Debug rendering of a `FrontMatterType` (modelled up to string
escapes; used by the source only inside error messages and method-call
argument display). -/
def FrontMatterType.debugFmt : FrontMatterType → String
  | .STRING v => "STRING(" ++ dq ++ v ++ dq ++ ")"
  | .NUMBER v => "NUMBER(" ++ intStr v ++ ")"
  | .DATE v => "DATE(" ++ dq ++ v ++ dq ++ ")"
  | .BOOLEAN v => "BOOLEAN(" ++ boolStr v ++ ")"
  | .ERROR v => "ERROR(" ++ dq ++ v ++ dq ++ ")"
  | .EMPTY => "EMPTY"
  | .ARRAY vs => "ARRAY([" ++ joinSep ", " (debugList vs) ++ "])"
  | .OBJECT vs => "OBJECT(" ++ lbrace ++ joinSep ", " (debugObjEntries vs) ++ rbrace ++ ")"
  | .PATTERN p => "PATTERN(RuleBasedPatternAction " ++ lbrace ++ " pattern: "
      ++ dq ++ p.pattern ++ dq ++ ", processors: ["
      ++ joinSep ", " (p.processors.map fun q =>
          "Processor " ++ lbrace ++ " func_name: " ++ dq ++ q.func_name ++ dq ++ " " ++ rbrace)
      ++ "] " ++ rbrace ++ ")"
  | .CASE_MATCH vs => "CASE_MATCH(" ++ lbrace ++ joinSep ", " (debugObjEntries vs)
      ++ rbrace ++ ")"
  | .VARIABLE v => "VARIABLE(" ++ dq ++ v ++ dq ++ ")"
  | .EXPRESSION st => "EXPRESSION(" ++ st.debugFmt ++ ")"
  | .IDENTIFIER v => "IDENTIFIER(" ++ dq ++ v ++ dq ++ ")"
  | .QUERY_STATEMENT from_ w select => "QUERY_STATEMENT(ShirePsiQueryStatement "
      ++ lbrace ++ " from: [" ++ joinSep ", " (from_.map fun _ => "VariableElement")
      ++ "], where_clause: " ++ w.debugFmt ++ ", select: ["
      ++ joinSep ", " (debugStmtList select) ++ "] " ++ rbrace ++ ")"

/-- Debug rendering of the elements of an `ARRAY`. -/
def debugList : List FrontMatterType → List String
  | [] => []
  | x :: xs => x.debugFmt :: debugList xs

/-- Debug rendering of the entries of an `OBJECT` or `CASE_MATCH`. -/
def debugObjEntries : List (String × FrontMatterType) → List String
  | [] => []
  | (k, v) :: xs => (dq ++ k ++ dq ++ ": " ++ v.debugFmt) :: debugObjEntries xs

/-- Derived Debug rendering of a `StatementType` (modelled up to string
escapes). -/
def StatementType.debugFmt : StatementType → String
  | .operator op => "Operator(Operator " ++ lbrace ++ " type_: " ++ op.debugName
      ++ " " ++ rbrace ++ ")"
  | .stringOperator op => "StringOperator(StringOperatorStatement " ++ lbrace
      ++ " type_: " ++ op.debugName ++ " " ++ rbrace ++ ")"
  | .comparison l op r => "Comparison(Comparison " ++ lbrace ++ " left: " ++ l.debugFmt
      ++ ", operator: Operator " ++ lbrace ++ " type_: " ++ op.debugName ++ " " ++ rbrace
      ++ ", right: " ++ r.debugFmt ++ " " ++ rbrace ++ ")"
  | .stringComparison v op value => "StringComparison(StringComparison " ++ lbrace
      ++ " variable: " ++ dq ++ v ++ dq ++ ", operator: StringOperatorStatement "
      ++ lbrace ++ " type_: " ++ op.debugName ++ " " ++ rbrace ++ ", value: "
      ++ dq ++ value ++ dq ++ " " ++ rbrace ++ ")"
  | .logicalExpression l op r => "LogicalExpression(LogicalExpression " ++ lbrace
      ++ " left: " ++ l.debugFmt ++ ", operator: " ++ op.debugName
      ++ ", right: " ++ r.debugFmt ++ " " ++ rbrace ++ ")"
  | .notExpression s => "NotExpression(NotExpression " ++ lbrace ++ " operand: "
      ++ s.debugFmt ++ " " ++ rbrace ++ ")"
  | .methodCall object_name method_name arguments => "MethodCall(MethodCall " ++ lbrace
      ++ " object_name: " ++ object_name.debugFmt
      ++ ", method_name: " ++ method_name.debugFmt
      ++ ", arguments: "
      ++ (match arguments with
          | none => "None"
          | some args => "Some([" ++ joinSep ", " (debugList args) ++ "])")
      ++ " " ++ rbrace ++ ")"
  | .value v => "Value(Value " ++ lbrace ++ " value: " ++ v.debugFmt ++ " " ++ rbrace ++ ")"
  | .processor ps => "Processor(Processor " ++ lbrace ++ " processors: ["
      ++ joinSep ", " (ps.map PatternActionFunc.debugFmt) ++ "] " ++ rbrace ++ ")"
  | .caseKeyValue k v => "CaseKeyValue(CaseKeyValue " ++ lbrace ++ " key: " ++ k.debugFmt
      ++ ", value: " ++ v.debugFmt ++ " " ++ rbrace ++ ")"
  | .conditionCase conds cases => "ConditionCase(ConditionCase " ++ lbrace
      ++ " conditions: [" ++ joinSep ", " (debugList conds) ++ "], cases: ["
      ++ joinSep ", " (debugList cases) ++ "] " ++ rbrace ++ ")"

/-- Debug rendering of a list of statements. -/
def debugStmtList : List StatementType → List String
  | [] => []
  | x :: xs => x.debugFmt :: debugStmtList xs

end

end Shire

namespace Shire

/-- Closed enumeration of every concrete type the evaluator ever boxes as
`Box<dyn Any>`: strings, booleans, `usize` (from `len`), `i32` (from
`NUMBER`), processor vectors, the two tuple shapes, a boxed
`Result<Box<dyn Any>, String>` (produced by `StatementType::evaluate`
wrapping an inner result), and a doubly-boxed `Box<dyn Any>` (produced by
`MethodCall::evaluate`). -/
inductive AnyVal where
  | aStr (s : String)
  | aBool (b : Bool)
  | aUSize (n : Nat)
  | aI32 (n : Int)
  | aProcs (ps : List PatternActionFunc)
  | aPair (fst snd : String)
  | aPairVec (fst snd : List String)
  | aResult (r : Except String AnyVal)
  | aBoxed (v : AnyVal)

/-- Embedding of `downcast_ref::<bool>()` on a boxed value: succeeds exactly
when the box holds a `bool`. -/
def AnyVal.downcastBool : AnyVal → Option Bool
  | .aBool b => some b
  | _ => none

/-- Outcome of an evaluator call: a boxed value, a typed error
(`Err(String)`), or a Rust panic with its message. -/
inductive EvalOut where
  | ok (v : AnyVal)
  | error (msg : String)
  | panicked (msg : String)

/-- Regex engine parameter standing in for the external `regex` crate:
compiling a pattern yields a matcher or fails. -/
def RegexEngine : Type := String → Option (String → Bool)

/-- Panic message of `Option::unwrap` on `None`. -/
def unwrapNoneMsg : String := "called Option::unwrap() on a None value"

/-- Trim of ASCII whitespace at both ends, embedding `str::trim` (whose
Unicode whitespace set is modelled by `Char.isWhitespace`). -/
def rustTrim (s : String) : String :=
  String.mk (((s.data.dropWhile Char.isWhitespace).reverse.dropWhile Char.isWhitespace).reverse)

/-- Substring test, embedding `str::contains` with a string pattern: some
suffix of the haystack starts with the needle. -/
def rustContains (hay pat : String) : Bool :=
  hay.data.tails.any (fun t => pat.data.isPrefixOf t)

/-- Lowercasing, embedding `str::to_lowercase` (ASCII fragment). -/
def rustLowercase (s : String) : String := String.mk (s.data.map Char.toLower)

/-- Uppercasing, embedding `str::to_uppercase` (ASCII fragment). -/
def rustUppercase (s : String) : String := String.mk (s.data.map Char.toUpper)

/-- Embedding of `Value::evaluate` (shire_expression.rs lines 122-131);
the scope argument is unused in the source. -/
def Value.evaluate (value : FrontMatterType) (_scope : Scope) : EvalOut :=
  match value with
  | .STRING v => .ok (.aStr v)
  | .NUMBER v => .ok (.aI32 v)
  | .DATE v => .ok (.aStr v)
  | .BOOLEAN v => .ok (.aBool v)
  | v => .error ("Unsupported value type: " ++ v.debugFmt)

/-- Rest of `Comparison::evaluate` once the left value is resolved: require
a string on the right, then compare with the operator (lexicographic string
order for Lt/Gt/Le/Ge, equality for Eq/NotEq, error otherwise). -/
def Comparison.evalWithLeft (op : OperatorType) (right : FrontMatterType)
    (left_value : String) : EvalOut :=
  match right with
  | .STRING right_value =>
      match op with
      | .Equal => .ok (.aBool (left_value == right_value))
      | .NotEqual => .ok (.aBool (left_value != right_value))
      | .LessThan => .ok (.aBool (decide (left_value < right_value)))
      | .GreaterThan => .ok (.aBool (decide (right_value < left_value)))
      | .LessEqual => .ok (.aBool (decide (left_value ≤ right_value)))
      | .GreaterEqual => .ok (.aBool (decide (right_value ≤ left_value)))
      | _ => .error "Invalid comparison operator"
  | _ => .error "Unsupported right value type"

/-- Embedding of `Comparison::evaluate` (shire_expression.rs lines 250-273):
resolve the left value (string literal or scope lookup defaulting to empty
text), then continue with `evalWithLeft`. -/
def Comparison.evaluate (left : FrontMatterType) (op : OperatorType)
    (right : FrontMatterType) (scope : Scope) : EvalOut :=
  match left with
  | .STRING lv => Comparison.evalWithLeft op right lv
  | .VARIABLE var => Comparison.evalWithLeft op right ((scope var).getD "")
  | _ => .error "Unsupported left value type"

/-- Embedding of `StringComparison::evaluate` (shire_expression.rs lines
288-302); the scope argument is unused in the source (`_variables`). -/
def StringComparison.evaluate (rm : RegexEngine) (variable_ : String)
    (op : StringOperator) (value : String) (_scope : Scope) : EvalOut :=
  match op with
  | .Contains => .ok (.aBool (rustContains variable_ value))
  | .StartsWith => .ok (.aBool (value.data.isPrefixOf variable_.data))
  | .EndsWith => .ok (.aBool (value.data.isSuffixOf variable_.data))
  | .Matches =>
      match rm value with
      | some is_match => .ok (.aBool (is_match variable_))
      | none => .error "Invalid regex pattern"

/-- Embedding of `MethodCall::parameters`: string arguments are taken
literally, other kinds are rendered with `display`. -/
def MethodCall.parameters (arguments : Option (List FrontMatterType)) :
    Option (List String) :=
  arguments.map (List.map fun arg =>
    match arg with
    | .STRING s => s
    | a => a.display)

/-- Embedding of `MethodCall::evaluate_expression` (shire_expression.rs lines
400-446).  Unknown methods hit `panic!`; `unwrap()` on missing parameters,
missing first/last characters, or a failed regex compilation also panics. -/
def MethodCall.evaluateExpression (rm : RegexEngine) (method_name : String)
    (parameters : Option (List String)) (value : String) : EvalOut :=
  match method_name with
  | "length" => .ok (.aUSize value.utf8ByteSize)
  | "trim" => .ok (.aStr (rustTrim value))
  | "contains" =>
      match parameters with
      | none => .panicked unwrapNoneMsg
      | some [] => .panicked unwrapNoneMsg
      | some (param :: _) => .ok (.aBool (rustContains value param))
  | "startsWith" =>
      match parameters with
      | none => .panicked unwrapNoneMsg
      | some [] => .panicked unwrapNoneMsg
      | some (param :: _) => .ok (.aBool (param.data.isPrefixOf value.data))
  | "endsWith" =>
      match parameters with
      | none => .panicked unwrapNoneMsg
      | some [] => .panicked unwrapNoneMsg
      | some (param :: _) => .ok (.aBool (param.data.isSuffixOf value.data))
  | "lowercase" => .ok (.aStr (rustLowercase value))
  | "uppercase" => .ok (.aStr (rustUppercase value))
  | "isEmpty" => .ok (.aBool (value == ""))
  | "isNotEmpty" => .ok (.aBool (!(value == "")))
  | "first" =>
      match value.data with
      | [] => .panicked unwrapNoneMsg
      | c :: _ => .ok (.aStr (String.mk [c]))
  | "last" =>
      match value.data.getLast? with
      | none => .panicked unwrapNoneMsg
      | some c => .ok (.aStr (String.mk [c]))
  | "matches" =>
      match parameters with
      | none => .panicked unwrapNoneMsg
      | some [] => .panicked unwrapNoneMsg
      | some (param :: _) =>
          match rm param with
          | none => .panicked "called Result::unwrap() on an Err value"
          | some is_match => .ok (.aBool (is_match value))
  | _ => .panicked ("Unsupported method: " ++ method_name)

/-- Embedding of `MethodCall::evaluate` (shire_expression.rs lines 450-467):
resolve the receiver to text, then box the raw `Box<dyn Any>` produced by
`evaluate_expression` inside a fresh `Ok(Box::new(..))`. -/
def MethodCall.evaluate (rm : RegexEngine) (object_name method_name : FrontMatterType)
    (arguments : Option (List FrontMatterType)) (scope : Scope) : EvalOut :=
  match object_name with
  | .STRING s => withValue s
  | .VARIABLE var => withValue ((scope var).getD "")
  | _ => .error "Unsupported object name type"
where
  withValue (value : String) : EvalOut :=
    match MethodCall.evaluateExpression rm method_name.display
        (MethodCall.parameters arguments) value with
    | .ok v => .ok (.aBoxed v)
    | .error m => .error m
    | .panicked m => .panicked m

/-- Embedding of `Processor::evaluate`: clones the processor list. -/
def Processor.evaluate (processors : List PatternActionFunc) (_scope : Scope) : EvalOut :=
  .ok (.aProcs processors)

/-- Embedding of `CaseKeyValue::evaluate`: pair of display renderings. -/
def CaseKeyValue.evaluate (key val : FrontMatterType) (_scope : Scope) : EvalOut :=
  .ok (.aPair key.display val.display)

/-- Embedding of `ConditionCase::evaluate`: pair of display-rendering
vectors. -/
def ConditionCase.evaluate (conditions cases : List FrontMatterType)
    (_scope : Scope) : EvalOut :=
  .ok (.aPairVec (conditions.map FrontMatterType.display) (cases.map FrontMatterType.display))

/-- Wrapping performed by `StatementType::evaluate` on every delegated arm:
the inner `Result<Box<dyn Any>, String>` is itself boxed inside `Ok`, so a
typed inner error still comes back as `Ok`; a panic propagates. -/
def wrapResult : EvalOut → EvalOut
  | .ok v => .ok (.aResult (.ok v))
  | .error m => .ok (.aResult (.error m))
  | .panicked m => .panicked m

/-- Core of `LogicalExpression::evaluate` (shire_expression.rs lines
317-345) applied to the two already-evaluated operand results: downcast both
to `bool`, then apply And/Or; any other operator is an error.  A panic in
the left operand fires first (it is evaluated first in the source). -/
def logicalCore (lres rres : EvalOut) (op : OperatorType) : EvalOut :=
  match lres with
  | .panicked m => .panicked m
  | lres' =>
    match rres with
    | .panicked m => .panicked m
    | rres' =>
      match lres' with
      | .error m => .error m
      | .panicked m => .panicked m
      | .ok lv =>
        match lv.downcastBool with
        | none => .error "Left operand is not of type bool"
        | some left_value =>
          match rres' with
          | .error m => .error m
          | .panicked m => .panicked m
          | .ok rv =>
            match rv.downcastBool with
            | none => .error "Right operand is not of type bool"
            | some right_value =>
              match op with
              | .And => .ok (.aBool (left_value && right_value))
              | .Or => .ok (.aBool (left_value || right_value))
              | _ => .error "Invalid logical operator"

/-- Core of `NotExpression::evaluate` (shire_expression.rs lines 358-374)
applied to the already-evaluated operand result. -/
def notCore (ores : EvalOut) : EvalOut :=
  match ores with
  | .panicked m => .panicked m
  | .error m => .error m
  | .ok v =>
    match v.downcastBool with
    | none => .error "Operand is not of type bool"
    | some b => .ok (.aBool (!b))

/-- Embedding of `impl Statement for StatementType`'s `evaluate`
(shire_expression.rs lines 29-43).  Every delegated arm wraps the inner
result in a fresh `Ok(Box::new(..))` (`wrapResult`); the `Operator` and
`StringOperator` arms box the display string directly. -/
def StatementType.evaluate (rm : RegexEngine) : StatementType → Scope → EvalOut
  | .operator op, _ => .ok (.aStr op.display)
  | .stringOperator op, _ => .ok (.aStr op.display)
  | .comparison l op r, scope => wrapResult (Comparison.evaluate l op r scope)
  | .stringComparison v op sval, scope =>
      wrapResult (StringComparison.evaluate rm v op sval scope)
  | .logicalExpression l op r, scope =>
      wrapResult (logicalCore (StatementType.evaluate rm l scope)
        (StatementType.evaluate rm r scope) op)
  | .notExpression s, scope => wrapResult (notCore (StatementType.evaluate rm s scope))
  | .methodCall o m a, scope => wrapResult (MethodCall.evaluate rm o m a scope)
  | .value v, scope => wrapResult (Value.evaluate v scope)
  | .processor ps, scope => wrapResult (Processor.evaluate ps scope)
  | .caseKeyValue k v, scope => wrapResult (CaseKeyValue.evaluate k v scope)
  | .conditionCase cs es, scope => wrapResult (ConditionCase.evaluate cs es scope)

/-- Embedding of `LogicalExpression::evaluate` itself: evaluate both child
statements through the `Statement` interface of `StatementType`, then apply
the boolean logic. -/
def LogicalExpression.evaluate (rm : RegexEngine) (left : StatementType)
    (op : OperatorType) (right : StatementType) (scope : Scope) : EvalOut :=
  logicalCore (StatementType.evaluate rm left scope)
    (StatementType.evaluate rm right scope) op

/-- Embedding of `NotExpression::evaluate` itself. -/
def NotExpression.evaluate (rm : RegexEngine) (operand : StatementType)
    (scope : Scope) : EvalOut :=
  notCore (StatementType.evaluate rm operand scope)

end Shire

namespace Shire

/-- Result of a nom parser call on the remaining input: success with a value
and the rest of the input, a recoverable parse error (`Err::Error`), or a
Rust panic raised while the parser ran. -/
inductive PRes (α : Type) where
  | ok (a : α) (rest : List Char)
  | err
  | panicked
  deriving DecidableEq, Repr

/-- A nom parser over character lists. -/
def Parser (α : Type) : Type := List Char → PRes α

/-- Sequencing of parsers, mirroring the `?` operator on `IResult`. -/
def pbind (p : Parser α) (f : α → Parser β) : Parser β := fun input =>
  match p input with
  | .ok a rest => f a rest
  | .err => .err
  | .panicked => .panicked

/-- Parser that consumes nothing and returns a value. -/
def ppure (a : α) : Parser α := fun input => .ok a input

/-- Embedding of nom `map`. -/
def pmap (f : α → β) (p : Parser α) : Parser β :=
  pbind p fun a => ppure (f a)

/-- Embedding of nom `opt`: a recoverable failure backtracks and yields
`none`. -/
def popt (p : Parser α) : Parser (Option α) := fun input =>
  match p input with
  | .ok a rest => .ok (some a) rest
  | .err => .ok none input
  | .panicked => .panicked

/-- Embedding of nom `alt` for two alternatives. -/
def palt2 (p q : Parser α) : Parser α := fun input =>
  match p input with
  | .err => q input
  | r => r

/-- Embedding of nom `preceded`. -/
def preceded (p : Parser α) (q : Parser β) : Parser β :=
  pbind p fun _ => q

/-- Embedding of nom `terminated`. -/
def terminated (p : Parser α) (q : Parser β) : Parser α :=
  pbind p fun a => pbind q fun _ => ppure a

/-- Embedding of nom `delimited`. -/
def delimited (p : Parser α) (q : Parser β) (r : Parser γ) : Parser β :=
  pbind p fun _ => pbind q fun b => pbind r fun _ => ppure b

/-- Embedding of nom `separated_pair`. -/
def separatedPair (p : Parser α) (sep : Parser β) (q : Parser γ) : Parser (α × γ) :=
  pbind p fun a => pbind sep fun _ => pbind q fun c => ppure (a, c)

/-- Embedding of a two-element nom `tuple`. -/
def ptuple2 (p : Parser α) (q : Parser β) : Parser (α × β) :=
  pbind p fun a => pbind q fun b => ppure (a, b)

/-- Longest prefix of the input satisfying a predicate, with the rest. -/
def spanP (p : Char → Bool) : List Char → List Char × List Char
  | [] => ([], [])
  | c :: cs =>
      if p c then
        let (a, b) := spanP p cs
        (c :: a, b)
      else ([], c :: cs)

/-- Embedding of nom `tag`. -/
def ptag (ts : List Char) : Parser Unit := fun input =>
  if ts.isPrefixOf input then .ok () (input.drop ts.length) else .err

/-- Embedding of nom `char`. -/
def pchar (c : Char) : Parser Unit := fun input =>
  match input with
  | c' :: rest => if c' == c then .ok () rest else .err
  | [] => .err

/-- Embedding of nom `take_while`: never fails, may consume nothing. -/
def pTakeWhile (p : Char → Bool) : Parser (List Char) := fun input =>
  let (a, b) := spanP p input
  .ok a b

/-- Embedding of nom `is_not`: longest nonempty run of characters not in the
set; fails when that run is empty. -/
def pIsNot (bad : List Char) : Parser (List Char) := fun input =>
  let (a, b) := spanP (fun c => !(bad.contains c)) input
  if a.isEmpty then .err else .ok a b

/-- The whitespace set of nom `multispace0`/`multispace1`: space, tab,
carriage return, line feed (code points 32, 9, 13, 10). -/
def isMultispaceCh (c : Char) : Bool :=
  c.toNat == 32 || c.toNat == 9 || c.toNat == 13 || c.toNat == 10

/-- Decimal digit predicate of nom `digit1` (ASCII `0`-`9`). -/
def isDigitCh (c : Char) : Bool := 48 ≤ c.toNat && c.toNat ≤ 57

/-- ASCII fragment of Rust `char::is_alphanumeric` (the source only ever
applies it to ASCII identifier characters). -/
def isAlphanumericCh (c : Char) : Bool :=
  (65 ≤ c.toNat && c.toNat ≤ 90) || (97 ≤ c.toNat && c.toNat ≤ 122)
    || (48 ≤ c.toNat && c.toNat ≤ 57)

/-- Embedding of nom `multispace0`. -/
def pMultispace0 : Parser Unit := fun input =>
  let (_, b) := spanP isMultispaceCh input
  .ok () b

/-- Embedding of nom `multispace1`. -/
def pMultispace1 : Parser Unit := fun input =>
  let (a, b) := spanP isMultispaceCh input
  if a.isEmpty then .err else .ok () b

/-- Embedding of nom `digit1`. -/
def pDigit1 : Parser (List Char) := fun input =>
  let (a, b) := spanP isDigitCh input
  if a.isEmpty then .err else .ok a b

/-- Loop of nom 7 `separated_list0` after the first element: parse a
separator (erroring out if it consumed nothing — nom's infinite-loop check),
then an element; stop, returning the input from before the separator, when
either fails.  The fuel argument only bounds the recursion; at every use it
exceeds the input length, which the loop strictly decreases. -/
def sepLoop (sep : Parser β) (f : Parser α) : Nat → List Char → List α → PRes (List α)
  | 0, _, _ => .err
  | fuel + 1, i, res =>
    match sep i with
    | .err => .ok res i
    | .panicked => .panicked
    | .ok _ i1 =>
      if i1.length == i.length then .err
      else
        match f i1 with
        | .err => .ok res i
        | .panicked => .panicked
        | .ok o i2 => sepLoop sep f fuel i2 (res ++ [o])

/-- Embedding of nom 7 `separated_list0`.  The first element may succeed
without consuming input (no infinite-loop check applies to it). -/
def sepList0 (sep : Parser β) (f : Parser α) : Parser (List α) := fun i =>
  match f i with
  | .err => .ok [] i
  | .panicked => .panicked
  | .ok o i1 => sepLoop sep f (i1.length + 1) i1 [o]

/-- Loop of nom 7 `fold_many0`: repeat the element parser, folding results;
an element succeeding without consuming input is an error (nom's
infinite-loop check); a recoverable element failure ends the loop. -/
def foldLoop (f : Parser α) (g : β → α → β) : Nat → List Char → β → PRes β
  | 0, _, _ => .err
  | fuel + 1, input, acc =>
    match f input with
    | .err => .ok acc input
    | .panicked => .panicked
    | .ok o i1 =>
      if i1.length == input.length then .err
      else foldLoop f g fuel i1 (g acc o)

/-- Embedding of nom 7 `fold_many0`. -/
def foldMany0 (f : Parser α) (init : β) (g : β → α → β) : Parser β := fun input =>
  foldLoop f g (input.length + 1) input init

/-- List-collecting counterpart of `foldLoop`, used to state that folding is
folding over the collected element sequence. -/
def collectLoop (f : Parser α) : Nat → List Char → PRes (List α)
  | 0, _ => .err
  | fuel + 1, input =>
    match f input with
    | .err => .ok [] input
    | .panicked => .panicked
    | .ok o i1 =>
      if i1.length == input.length then .err
      else
        match collectLoop f fuel i1 with
        | .ok l rest => .ok (o :: l) rest
        | .err => .err
        | .panicked => .panicked

/-- Collecting form of `foldMany0`: the sequence of parsed elements in
source order. -/
def collectMany0 (f : Parser α) : Parser (List α) := fun input =>
  collectLoop f (input.length + 1) input

end Shire

namespace Shire

/-- Character list of a string literal. -/
def strChars (s : String) : List Char := s.data

/-- Enum `Function` of parser.rs: a pipeline of named functions, each with
its argument list. -/
inductive Function where
  | functions (fns : List (String × List String))
  deriving DecidableEq, Repr

/-- Enum `VariableTransform` of parser.rs.  `caseBlock` models the `Case`
variant; its `cases` HashMap is an association list. -/
inductive VariableTransform where
  | string (s : String)
  | integer (n : Int)
  | patternAction (pattern : String) (command : Function)
  | action (command : Function)
  | caseBlock (pattern : String) (cases : List (String × VariableTransform))
      (default_ : Option Function)

/-- Insert-or-replace on an association list, embedding `HashMap::insert`
(the map is observed only through lookups). -/
def hmInsert (m : List (String × α)) (k : String) (v : α) : List (String × α) :=
  match m with
  | [] => [(k, v)]
  | (k', v') :: rest => if k' == k then (k', v) :: rest else (k', v') :: hmInsert rest k v

/-- Lookup on an association list, embedding `HashMap::get`. -/
def hmLookup (m : List (String × α)) (k : String) : Option α :=
  match m with
  | [] => none
  | (k', v) :: rest => if k' == k then some v else hmLookup rest k

/-- Embedding of `parse_string` (parser.rs line 200): a nonempty run of
characters other than `|` and newline. -/
def parse_string : Parser String :=
  pmap String.mk (pIsNot ['|', '\n'])

/-- Embedding of `parse_quoted_string` (parser.rs lines 204-210): a quote,
a nonempty run of non-quote characters, a quote. -/
def parse_quoted_string : Parser String :=
  delimited (pchar '"') (pmap String.mk (pIsNot ['"'])) (pchar '"')

/-- Embedding of `parse_function` (parser.rs lines 212-229): an alphanumeric
name (possibly empty — `take_while` never fails), then optionally a
parenthesized comma-separated list of quoted arguments. -/
def parse_function : Parser (String × List String) :=
  pbind (pTakeWhile isAlphanumericCh) fun cmd =>
  pbind (popt (preceded pMultispace0
      (delimited (pchar '(')
        (sepList0 (pchar ',') (delimited (pchar '"') (pIsNot ['"']) (pchar '"')))
        (pchar ')')))) fun args =>
  ppure (String.mk cmd, ((args.getD []).map String.mk))

/-- Separator between pipeline functions: `|` with surrounding whitespace. -/
def pipeSep : Parser Unit :=
  delimited pMultispace0 (ptag ['|']) pMultispace0

/-- Opening-brace delimiter `tuple((multispace0, tag("{"), multispace0))`. -/
def braceOpen : Parser Unit :=
  pbind pMultispace0 fun _ => pbind (ptag ['\x7b']) fun _ => pMultispace0

/-- Closing-brace delimiter `tuple((multispace0, tag("}"), multispace0))`. -/
def braceClose : Parser Unit :=
  pbind pMultispace0 fun _ => pbind (ptag ['\x7d']) fun _ => pMultispace0

/-- Embedding of `parse_pattern_actions` (parser.rs lines 233-250): a regex
literal, then a braced pipeline of functions separated by bars. -/
def parse_pattern_actions : Parser VariableTransform :=
  pbind (delimited (ptag ['/']) (pIsNot ['/']) (ptag ['/'])) fun pattern =>
  pbind (delimited braceOpen (sepList0 pipeSep parse_function) braceClose) fun functions =>
  ppure (.patternAction (String.mk pattern) (.functions functions))

/-- Embedding of `parse_case_block` (parser.rs lines 253-290): a regex
literal, an opening brace, folded case entries (quoted key, whitespace, one
function), an optional `default` keyword, then — via an `if let` on
`parse_function`, which always succeeds — the default pipeline, and the
closing brace. -/
def parse_case_block : Parser VariableTransform :=
  pbind (delimited (ptag ['/']) (pIsNot ['/']) (ptag ['/'])) fun pattern =>
  pbind (delimited pMultispace0 (ptag ['\x7b']) pMultispace0) fun _ =>
  pbind (foldMany0
      (terminated
        (separatedPair (delimited (ptag ['"']) (pIsNot ['"']) (ptag ['"']))
          pMultispace1 parse_function)
        pMultispace0)
      ([] : List (String × VariableTransform))
      (fun acc kv =>
        hmInsert acc (String.mk kv.1) (.action (.functions [kv.2])))) fun cases =>
  pbind (popt (terminated (ptag (strChars "default")) pMultispace1)) fun _ =>
  fun input =>
    let (default_, input') : Option Function × List Char :=
      match parse_function input with
      | .ok cmd remaining_input => (some (.functions [cmd]), remaining_input)
      | _ => (none, input)
    match (delimited pMultispace0 (ptag ['\x7d']) pMultispace0) input' with
    | .ok _ rest => .ok (.caseBlock (String.mk pattern) cases default_) rest
    | .err => .err
    | .panicked => .panicked

/-- Numeric value of a digit run. -/
def natOfDigits (digits : List Char) : Nat :=
  digits.foldl (fun acc c => 10 * acc + (c.toNat - 48)) 0

/-- Embedding of `parse_integer` (parser.rs lines 292-296): one or more
digits, then `digits.parse::<i32>().unwrap()` — the `unwrap` panics when the
value exceeds `i32::MAX` (2^31 - 1); a minus sign is not consumed by
`digit1`, so negative literals are a parse error. -/
def parse_integer : Parser Int :=
  pbind pDigit1 fun digits => fun input =>
    let n := natOfDigits digits
    if n ≤ 2147483647 then .ok (Int.ofNat n) input else .panicked

/-- Embedding of `parse_variable_value` (parser.rs lines 298-305): the four
alternatives in source order. -/
def parse_variable_value : Parser VariableTransform :=
  palt2 parse_pattern_actions
    (palt2 parse_case_block
      (palt2 (pmap VariableTransform.string parse_quoted_string)
        (pmap VariableTransform.integer parse_integer)))

/-- Embedding of `parse_variable` (parser.rs lines 311-321): a quoted key,
a colon, and a variable value. -/
def parse_variable : Parser (String × VariableTransform) :=
  pbind (ptuple2
      (preceded pMultispace0 (delimited (ptag ['"']) (pIsNot ['"']) (ptag ['"'])))
      (preceded (delimited pMultispace0 (ptag [':']) pMultispace0) parse_variable_value))
    fun kv => ppure (String.mk kv.1, kv.2)

/-- Embedding of `parse_frontmatter_start` (parser.rs lines 324-329). -/
def parse_frontmatter_start : Parser Unit :=
  pbind pMultispace0 fun _ => pbind (ptag (strChars "---")) fun _ => pMultispace0

/-- Embedding of `parse_frontmatter_end` (parser.rs lines 331-336). -/
def parse_frontmatter_end : Parser Unit :=
  pbind pMultispace0 fun _ => pbind (ptag (strChars "---")) fun _ => pMultispace0

/-- Enum `InteractionType` of parser.rs. -/
inductive InteractionType where
  | AppendCursor | AppendCursorStream | OutputFile | ReplaceSelection
  | ReplaceCurrentFile | InsertBeforeSelection | RunPanel | OnPaste
  deriving DecidableEq, Repr

/-- Embedding of `InteractionType::from`: case-insensitive match with
`RunPanel` as the fallback. -/
def InteractionType.ofStr (interaction : String) : InteractionType :=
  match rustLowercase interaction with
  | "appendcursor" => .AppendCursor
  | "appendcursorstream" => .AppendCursorStream
  | "outputfile" => .OutputFile
  | "replaceselection" => .ReplaceSelection
  | "replacecurrentfile" => .ReplaceCurrentFile
  | "insertbeforeselection" => .InsertBeforeSelection
  | "runpanel" => .RunPanel
  | "onpaste" => .OnPaste
  | _ => .RunPanel

/-- Enum `ShireActionLocation` of parser.rs. -/
inductive ShireActionLocation where
  | ContextMenu | IntentionMenu | TerminalMenu | CommitMenu | RunPanel | InputBox
  deriving DecidableEq, Repr

/-- Embedding of `ShireActionLocation::from`: case-sensitive match with
`RunPanel` as the fallback. -/
def ShireActionLocation.ofStr (action_location : String) : ShireActionLocation :=
  match action_location with
  | "ContextMenu" => .ContextMenu
  | "IntentionMenu" => .IntentionMenu
  | "TerminalMenu" => .TerminalMenu
  | "CommitMenu" => .CommitMenu
  | "RunPanel" => .RunPanel
  | "InputBox" => .InputBox
  | _ => .RunPanel

/-- Struct `HobbitHole` of parser.rs; the `variables` HashMap field is the
association list `vars`. -/
structure HobbitHole where
  name : String
  description : Option String
  interaction : Option InteractionType
  action_location : Option ShireActionLocation
  vars : List (String × VariableTransform)

/-- Embedding of `HobbitHole::default`. -/
def HobbitHole.default_ : HobbitHole :=
  { name := "", description := none, interaction := none,
    action_location := none, vars := [] }

/-- Enum `HobbitHoleKey` of parser.rs. -/
inductive HobbitHoleKey where
  | Name | Description | Interaction | ActionLocation | Variables
  deriving DecidableEq, Repr

/-- Embedding of `impl From<&str> for HobbitHoleKey`: every unknown key maps
to `Name`. -/
def HobbitHoleKey.ofStr (key : String) : HobbitHoleKey :=
  match key with
  | "name" => .Name
  | "description" => .Description
  | "interaction" => .Interaction
  | "actionLocation" => .ActionLocation
  | "variables" => .Variables
  | _ => .Name

/-- The variables-block parser used in the `Variables` arm of
`parse_hobbit_hole` (parser.rs lines 367-379): fold of `parse_variable`
entries into the map, last write winning via `HashMap::insert`. -/
def parseVariablesBlock : Parser (List (String × VariableTransform)) :=
  foldMany0 (terminated parse_variable pMultispace0)
    ([] : List (String × VariableTransform))
    (fun acc kv => hmInsert acc kv.1 kv.2)

/-- Collecting counterpart of `parseVariablesBlock`: the entry sequence in
source order. -/
def collectVariablesBlock : Parser (List (String × VariableTransform)) :=
  collectMany0 (terminated parse_variable pMultispace0)

/-- One iteration of the `parse_hobbit_hole` while loop (parser.rs lines
341-389): read a key, a colon, dispatch on the key to parse the value into
the record, then consume trailing whitespace. -/
def hobbitStep (ci : List Char) (hole : HobbitHole) : PRes HobbitHole :=
  match pTakeWhile isAlphanumericCh ci with
  | .ok key input =>
    match (delimited pMultispace0 (ptag [':']) pMultispace0) input with
    | .ok _ value_input =>
      let after : PRes HobbitHole :=
        match HobbitHoleKey.ofStr (String.mk key) with
        | .Name =>
          match parse_quoted_string value_input with
          | .ok name new => .ok { hole with name := name } new
          | .err => .err
          | .panicked => .panicked
        | .Description =>
          match parse_string value_input with
          | .ok description new => .ok { hole with description := some description } new
          | .err => .err
          | .panicked => .panicked
        | .Interaction =>
          match parse_string value_input with
          | .ok interaction new =>
              .ok { hole with interaction := some (InteractionType.ofStr interaction) } new
          | .err => .err
          | .panicked => .panicked
        | .ActionLocation =>
          match parse_string value_input with
          | .ok action_location new =>
              .ok { hole with
                action_location := some (ShireActionLocation.ofStr action_location) } new
          | .err => .err
          | .panicked => .panicked
        | .Variables =>
          match parseVariablesBlock value_input with
          | .ok vars new => .ok { hole with vars := vars } new
          | .err => .err
          | .panicked => .panicked
      match after with
      | .ok hole' ci' =>
        match pMultispace0 ci' with
        | .ok _ new2 => .ok hole' new2
        | .err => .err
        | .panicked => .panicked
      | .err => .err
      | .panicked => .panicked
    | .err => .err
    | .panicked => .panicked
  | .err => .err
  | .panicked => .panicked

/-- The `parse_hobbit_hole` while loop: iterate `hobbitStep` until the rest
is empty or starts with the closing fence.  Every iteration consumes at
least the colon, so the fuel (input length plus one at the call site) never
runs out. -/
def hobbitLoop : Nat → List Char → HobbitHole → PRes HobbitHole
  | 0, _, _ => .err
  | fuel + 1, ci, hole =>
    if ci.isEmpty then .ok hole ci
    else
      match hobbitStep ci hole with
      | .ok hole' rest =>
        if (strChars "---").isPrefixOf rest || rest.isEmpty then .ok hole' rest
        else hobbitLoop fuel rest hole'
      | .err => .err
      | .panicked => .panicked

/-- Embedding of `parse_hobbit_hole` (parser.rs lines 338-393). -/
def parse_hobbit_hole : Parser HobbitHole := fun input =>
  match parse_frontmatter_start input with
  | .ok _ ci =>
    match hobbitLoop (ci.length + 1) ci HobbitHole.default_ with
    | .ok hole rest =>
      match parse_frontmatter_end rest with
      | .ok _ rest2 => .ok hole rest2
      | .err => .err
      | .panicked => .panicked
    | .err => .err
    | .panicked => .panicked
  | .err => .err
  | .panicked => .panicked

end Shire

namespace Shire

/-- C1: the claim states that a `LogicalExpression` whose two sides evaluate
to booleans (for example two valid `Comparison`s) evaluates, through the
`Statement` interface, to the And/Or of the two boolean sub-results.  In the
code this never happens: `StatementType::evaluate` re-boxes each child's
`Result<Box<dyn Any>, String>` inside `Ok(Box::new(..))`, so the
`downcast_ref::<bool>` in `LogicalExpression::evaluate` always sees a
`Result`, never a `bool`, and the evaluation returns the error
"Left operand is not of type bool" even though both comparisons evaluate to
`true` on their own — and through the `StatementType` wrapper the error is
itself swallowed into an `Ok` box. -/
theorem logicalExpression_boolean_operands_still_error (rm : RegexEngine) (scope : Scope) :
    Comparison.evaluate (.STRING "a") .Equal (.STRING "a") scope = .ok (.aBool true)
    ∧ Comparison.evaluate (.STRING "b") .Equal (.STRING "b") scope = .ok (.aBool true)
    ∧ LogicalExpression.evaluate rm
        (.comparison (.STRING "a") .Equal (.STRING "a")) .And
        (.comparison (.STRING "b") .Equal (.STRING "b")) scope
      = .error "Left operand is not of type bool"
    ∧ StatementType.evaluate rm
        (.logicalExpression
          (.comparison (.STRING "a") .Equal (.STRING "a")) .And
          (.comparison (.STRING "b") .Equal (.STRING "b"))) scope
      = .ok (.aResult (.error "Left operand is not of type bool")) :=
  ⟨rfl, rfl, rfl, rfl⟩

/-- C3: the claim states that a method call on a text receiver returns a
typed error — never panics — for unknown method names and for `first`/`last`
on empty text.  In the code both situations panic:
`evaluate_expression` ends in `panic!("Unsupported method: ..")`, and
`first`/`last` call `.unwrap()` on the `None` produced by an empty string's
character iterator. -/
theorem methodCall_unknown_or_empty_panics (rm : RegexEngine) (scope : Scope) :
    MethodCall.evaluate rm (.STRING "hello") (.IDENTIFIER "unknownMethod") none scope
      = .panicked "Unsupported method: unknownMethod"
    ∧ MethodCall.evaluate rm (.STRING "") (.IDENTIFIER "first") none scope
      = .panicked unwrapNoneMsg
    ∧ MethodCall.evaluate rm (.STRING "") (.IDENTIFIER "last") none scope
      = .panicked unwrapNoneMsg
    ∧ MethodCall.evaluate rm (.STRING "Hello") (.IDENTIFIER "length") none scope
      = .ok (.aBoxed (.aUSize 5)) :=
  ⟨rfl, rfl, rfl, rfl⟩

/-- C4: the claim states that `/re/ { }` parses to a `PatternAction` with an
empty pipeline.  Parsing does succeed, but the pipeline is not empty: nom's
`separated_list0` lets the first `parse_function` succeed on `}` while
consuming nothing (an alphanumeric run may be empty and the argument list is
optional), so the pipeline holds one function with empty name and no
arguments. -/
theorem parse_pattern_actions_empty_pipeline_singleton :
    parse_pattern_actions (strChars "/re/ { }")
      = .ok (.patternAction "re" (.functions [("", [])])) [] :=
  rfl

/-- C5: the claim states that a case block without a `default` arm parses to
a `Case` whose default field is `None`.  In the code the `if let
Ok(..) = parse_function(input)` that fills the default always succeeds —
`parse_function` cannot fail — so even without a `default` arm the field is
`Some` of a pipeline holding one function with empty name. -/
theorem parse_case_block_absent_default_is_some :
    parse_case_block (strChars "/.*.log/ \x7b \"error\" grep(\"ERROR\") \x7d")
      = .ok (.caseBlock ".*.log"
          [("error", .action (.functions [("grep", ["ERROR"])]))]
          (some (.functions [("", [])]))) [] :=
  rfl

/-- C6: the claim states that integer literals in the signed 32-bit range
parse to their value and out-of-range literals yield a returned
`IntegerOverflowError`.  In the code `parse_integer` does
`digits.parse::<i32>().unwrap()`: an overflowing literal panics instead of
returning an error, and a negative literal is not even consumed by `digit1`
(so `-1` is a parse error, not the value `-1`). -/
theorem parse_integer_overflow_panics :
    parse_integer (strChars "2147483648") = .panicked
    ∧ parse_integer (strChars "-1") = .err
    ∧ parse_integer (strChars "2147483647") = .ok 2147483647 []
    ∧ parse_integer (strChars "42") = .ok 42 [] :=
  ⟨rfl, rfl, rfl, rfl⟩

end Shire

namespace Shire

/-- Helper: a successful `is_not` always returns a nonempty run. -/
theorem pIsNot_ok_ne_nil (bad : List Char) (input a rest : List Char)
    (h : pIsNot bad input = .ok a rest) : a ≠ [] := by
  unfold pIsNot at h
  by_cases hc : (spanP (fun c => !(bad.contains c)) input).1.isEmpty
  · simp only [hc] at h
    exact PRes.noConfusion h
  · simp only [hc] at h
    injection h with h1 h2
    intro ha
    rw [h1] at hc
    simp [ha] at hc

/-- C10: the quoted-string primitive rejects the empty quoted string — on
the two-character input `""` it fails (nom `is_not` requires a nonempty
run) — and therefore every successfully parsed quoted string has at least
one interior character. -/
theorem parse_quoted_string_rejects_empty :
    parse_quoted_string (strChars "\"\"") = .err
    ∧ ∀ (input : List Char) (s : String) (rest : List Char),
        parse_quoted_string input = .ok s rest → s ≠ "" := by
  constructor
  · rfl
  · intro input s rest h
    unfold parse_quoted_string delimited pbind at h
    cases h1 : pchar '"' input with
    | err => rw [h1] at h; exact PRes.noConfusion h
    | panicked => rw [h1] at h; exact PRes.noConfusion h
    | ok u i1 =>
      rw [h1] at h
      dsimp only at h
      cases h2 : pmap String.mk (pIsNot ['"']) i1 with
      | err => rw [h2] at h; exact PRes.noConfusion h
      | panicked => rw [h2] at h; exact PRes.noConfusion h
      | ok b i2 =>
        rw [h2] at h
        dsimp only at h
        cases h3 : pchar '"' i2 with
        | err => rw [h3] at h; exact PRes.noConfusion h
        | panicked => rw [h3] at h; exact PRes.noConfusion h
        | ok v i3 =>
          rw [h3] at h
          dsimp only at h
          unfold ppure at h
          injection h with hbs hir
          unfold pmap pbind ppure at h2
          cases h4 : pIsNot ['"'] i1 with
          | err => rw [h4] at h2; exact PRes.noConfusion h2
          | panicked => rw [h4] at h2; exact PRes.noConfusion h2
          | ok a i1' =>
            rw [h4] at h2
            injection h2 with hba hii
            have hane : a ≠ [] := pIsNot_ok_ne_nil _ _ _ _ h4
            intro hs
            exact hane (congrArg String.data (hba.trans (hbs.trans hs)))

end Shire

namespace Shire

/-- C8: evaluating `StringComparison(s, Contains, p)` yields exactly the
substring test on the literal stored text — the scope (and the regex engine)
play no role — and that test is true iff `s` contains `p` as a substring. -/
theorem stringComparison_contains_iff_substring (rm : RegexEngine) (s p : String)
    (scope : Scope) :
    StringComparison.evaluate rm s .Contains p scope = .ok (.aBool (rustContains s p))
    ∧ (rustContains s p = true ↔ ∃ pre suf, s.data = pre ++ p.data ++ suf) := by
  constructor
  · rfl
  · unfold rustContains
    rw [List.any_eq_true]
    constructor
    · rintro ⟨t, ht, hp⟩
      rw [List.mem_tails] at ht
      rw [List.isPrefixOf_iff_prefix] at hp
      obtain ⟨pre, hpre⟩ := ht
      obtain ⟨suf, hsuf⟩ := hp
      exact ⟨pre, suf, by rw [← hpre, ← hsuf, List.append_assoc]⟩
    · rintro ⟨pre, suf, hs⟩
      refine ⟨p.data ++ suf, ?_, ?_⟩
      · rw [List.mem_tails]
        exact ⟨pre, by rw [← List.append_assoc, ← hs]⟩
      · rw [List.isPrefixOf_iff_prefix]
        exact ⟨suf, rfl⟩

end Shire

namespace Shire

/-- Spec-side lexicographic three-way comparison of character sequences. -/
def lexCmp : List Char → List Char → Ordering
  | [], [] => .eq
  | [], _ :: _ => .lt
  | _ :: _, [] => .gt
  | a :: as, b :: bs => if a < b then .lt else if b < a then .gt else lexCmp as bs

/-- Swapping the arguments of `lexCmp` swaps the ordering. -/
theorem lexCmp_swap : ∀ as bs : List Char, lexCmp bs as = (lexCmp as bs).swap := by
  intro as
  induction as with
  | nil =>
    intro bs
    cases bs <;> rfl
  | cons a as ih =>
    intro bs
    cases bs with
    | nil => rfl
    | cons b bs =>
      by_cases h1 : a < b
      · have h2 : ¬ b < a := lt_asymm h1
        simp [lexCmp, h1, h2, Ordering.swap]
      · by_cases h2 : b < a
        · simp [lexCmp, h1, h2, Ordering.swap]
        · simp [lexCmp, h1, h2, ih bs]

/-- `lexCmp` returns `lt` exactly on lexicographically smaller sequences. -/
theorem lexCmp_lt_iff : ∀ as bs : List Char, lexCmp as bs = .lt ↔ List.Lex (· < ·) as bs := by
  intro as
  induction as with
  | nil =>
    intro bs
    cases bs with
    | nil => exact iff_of_false (by simp [lexCmp]) (by intro h; cases h)
    | cons b t => exact iff_of_true rfl List.Lex.nil
  | cons a as ih =>
    intro bs
    cases bs with
    | nil => exact iff_of_false (by simp [lexCmp]) (by intro h; cases h)
    | cons b bs =>
      by_cases h1 : a < b
      · exact iff_of_true (by simp [lexCmp, h1]) (.rel h1)
      · by_cases h2 : b < a
        · refine iff_of_false (by simp [lexCmp, h1, h2]) ?_
          intro h
          cases h with
          | rel h' => exact h1 h'
          | cons h' => exact lt_irrefl _ h2
        · have hab : a = b := le_antisymm (not_lt.mp h2) (not_lt.mp h1)
          subst hab
          constructor
          · intro h
            exact .cons ((ih bs).mp (by simpa [lexCmp, lt_irrefl] using h))
          · intro h
            cases h with
            | rel h' => exact absurd h' h1
            | cons h' =>
              simpa [lexCmp, lt_irrefl] using (ih bs).mpr h'

/-- An `Ordering` swaps to `lt` exactly when it is `gt`. -/
theorem swap_eq_lt_iff : ∀ o : Ordering, o.swap = .lt ↔ o = .gt := by
  intro o; cases o <;> simp [Ordering.swap]

/-- The Rust order on strings (`<`) is the lexicographic comparison. -/
theorem string_lt_iff_lexCmp (s t : String) : s < t ↔ lexCmp s.data t.data = .lt := by
  rw [String.lt_iff_toList_lt]
  exact (lexCmp_lt_iff s.data t.data).symm

/-- The reversed Rust order on strings is the `gt` case of `lexCmp`. -/
theorem string_gt_iff_lexCmp (s t : String) : t < s ↔ lexCmp s.data t.data = .gt := by
  rw [string_lt_iff_lexCmp, lexCmp_swap, swap_eq_lt_iff]

/-- Boolean form of string equality. -/
theorem beq_eq_decide (s t : String) : (s == t) = decide (s = t) := by
  by_cases h : s = t <;> simp [h]

/-- Boolean form of string inequality. -/
theorem bne_eq_decide (s t : String) : (s != t) = decide (¬ s = t) := by
  by_cases h : s = t <;> simp [h]

/-- Boolean bridge for `<`. -/
theorem decide_lt_eq (s t : String) :
    (decide (s < t)) = (decide (lexCmp s.data t.data = .lt)) :=
  decide_eq_decide.mpr (string_lt_iff_lexCmp s t)

/-- Boolean bridge for `>`. -/
theorem decide_gt_eq (s t : String) :
    (decide (t < s)) = (decide (lexCmp s.data t.data = .gt)) :=
  decide_eq_decide.mpr (string_gt_iff_lexCmp s t)

/-- Boolean bridge for `<=`. -/
theorem decide_le_eq (s t : String) :
    (decide (s ≤ t)) = (decide (lexCmp s.data t.data ≠ .gt)) :=
  decide_eq_decide.mpr (not_congr (string_gt_iff_lexCmp s t))

/-- Boolean bridge for `>=`. -/
theorem decide_ge_eq (s t : String) :
    (decide (t ≤ s)) = (decide (lexCmp s.data t.data ≠ .lt)) :=
  decide_eq_decide.mpr (not_congr (string_lt_iff_lexCmp s t))

/-- Spec-side resolution of the comparison's left operand: a `Variable` is
looked up in the scope with a missing key yielding empty text, a `String` is
itself, and any other kind has no resolution (an error). -/
def resolveLeftSpec (scope : Scope) : FrontMatterType → Option String
  | .STRING s => some s
  | .VARIABLE n => some ((scope n).getD "")
  | _ => none

/-- Spec-side right operand of a comparison: must be a `String`. -/
def resolveRightSpec : FrontMatterType → Option String
  | .STRING t => some t
  | _ => none

/-- Spec-side denotation of a comparison operator: the boolean of equality
for Eq/NotEq, of the lexicographic comparison for Lt/Gt/Le/Ge, and no
denotation (an error) for the logical operators And/Or/Not. -/
def compOpDenote (op : OperatorType) (l r : String) : Option Bool :=
  match op with
  | .Equal => some (decide (l = r))
  | .NotEqual => some (decide (¬ l = r))
  | .LessThan => some (decide (lexCmp l.data r.data = .lt))
  | .GreaterThan => some (decide (lexCmp l.data r.data = .gt))
  | .LessEqual => some (decide (lexCmp l.data r.data ≠ .gt))
  | .GreaterEqual => some (decide (lexCmp l.data r.data ≠ .lt))
  | _ => none

/-- C2: `Comparison::evaluate` implements exactly the specified behaviour —
left operand resolved from literal or scope (missing key yields empty text,
other kinds error), right operand must be a string literal, the six
comparison operators denote equality or lexicographic comparison, and the
logical operators And/Or/Not are errors. -/
theorem comparison_evaluate_matches_spec (left : FrontMatterType) (op : OperatorType)
    (right : FrontMatterType) (scope : Scope) :
    Comparison.evaluate left op right scope =
      match resolveLeftSpec scope left with
      | none => .error "Unsupported left value type"
      | some l =>
        match resolveRightSpec right with
        | none => .error "Unsupported right value type"
        | some r =>
          match compOpDenote op l r with
          | none => .error "Invalid comparison operator"
          | some b => .ok (.aBool b) := by
  have key : ∀ l : String, Comparison.evalWithLeft op right l =
      (match resolveRightSpec right with
       | none => EvalOut.error "Unsupported right value type"
       | some r =>
         match compOpDenote op l r with
         | none => EvalOut.error "Invalid comparison operator"
         | some b => EvalOut.ok (.aBool b)) := by
    intro l
    cases right
    case STRING r =>
      cases op
      case Equal =>
        simp only [Comparison.evalWithLeft, resolveRightSpec, compOpDenote]
        rw [beq_eq_decide]
      case NotEqual =>
        simp only [Comparison.evalWithLeft, resolveRightSpec, compOpDenote]
        rw [bne_eq_decide]
      case LessThan =>
        simp only [Comparison.evalWithLeft, resolveRightSpec, compOpDenote]
        rw [decide_lt_eq]
      case GreaterThan =>
        simp only [Comparison.evalWithLeft, resolveRightSpec, compOpDenote]
        rw [decide_gt_eq]
      case LessEqual =>
        simp only [Comparison.evalWithLeft, resolveRightSpec, compOpDenote]
        rw [decide_le_eq]
      case GreaterEqual =>
        simp only [Comparison.evalWithLeft, resolveRightSpec, compOpDenote]
        rw [decide_ge_eq]
      all_goals rfl
    all_goals rfl
  cases left
  case STRING lv => exact key lv
  case VARIABLE n => exact key _
  all_goals rfl

end Shire

namespace Shire

/-- Concrete witness for the nonemptiness half of the quoted-string claim:
apply it to the parse of `"a"`. -/
theorem parse_quoted_string_rejects_empty_witness : ("a" : String) ≠ "" :=
  parse_quoted_string_rejects_empty.2 (strChars "\"a\"") "a" [] rfl

/-- Value bound to a key by the last-written entry of an entry sequence. -/
def lastEntry (es : List (String × α)) (k : String) : Option α :=
  es.foldl (fun acc kv => if kv.1 == k then some kv.2 else acc) none

/-- Lookup after an insert: the inserted key reads back the new value, other
keys are untouched. -/
theorem hmLookup_hmInsert (m : List (String × α)) (k j : String) (v : α) :
    hmLookup (hmInsert m k v) j = if j = k then some v else hmLookup m j := by
  induction m with
  | nil =>
    by_cases h : j = k
    · simp [hmInsert, hmLookup, h]
    · simp [hmInsert, hmLookup, h, Ne.symm h]
  | cons hd tl ih =>
    obtain ⟨k', v'⟩ := hd
    by_cases h1 : k' = k
    · subst h1
      by_cases h2 : j = k'
      · simp [hmInsert, hmLookup, h2]
      · simp [hmInsert, hmLookup, h2, Ne.symm h2]
    · by_cases h2 : j = k'
      · subst h2
        simp [hmInsert, hmLookup, h1]
      · simp [hmInsert, hmLookup, h1, h2, Ne.symm h2, ih]

/-- Folding the last-write accumulator from an arbitrary start. -/
theorem lastEntry_foldl (k : String) :
    ∀ (es : List (String × α)) (acc : Option α),
      es.foldl (fun acc kv => if kv.1 == k then some kv.2 else acc) acc =
        match lastEntry es k with
        | some v => some v
        | none => acc := by
  intro es
  induction es with
  | nil => intro acc; rfl
  | cons kv es ih =>
    intro acc
    have hL : lastEntry (kv :: es) k =
        match lastEntry es k with
        | some v => some v
        | none => (if kv.1 == k then some kv.2 else none) := by
      unfold lastEntry
      rw [List.foldl_cons, ih]
      rfl
    rw [List.foldl_cons, ih, hL]
    cases lastEntry es k with
    | some v => rfl
    | none => cases hb : (kv.1 == k) <;> simp [hb]

/-- Folding `HashMap::insert` over an entry sequence and then looking a key
up reads the last-written entry for that key, falling back to the initial
map. -/
theorem foldl_hmInsert_lookup :
    ∀ (es : List (String × α)) (m : List (String × α)) (k : String),
      hmLookup (es.foldl (fun acc kv => hmInsert acc kv.1 kv.2) m) k =
        match lastEntry es k with
        | some v => some v
        | none => hmLookup m k := by
  intro es
  induction es with
  | nil => intro m k; rfl
  | cons kv es ih =>
    intro m k
    have hL : lastEntry (kv :: es) k =
        match lastEntry es k with
        | some v => some v
        | none => (if kv.1 == k then some kv.2 else none) := by
      unfold lastEntry
      rw [List.foldl_cons, lastEntry_foldl]
      rfl
    rw [List.foldl_cons, ih, hL]
    cases lastEntry es k with
    | some v => rfl
    | none =>
      rw [hmLookup_hmInsert]
      by_cases hb : kv.1 = k
      · simp [hb]
      · simp [hb, Ne.symm hb]

end Shire

namespace Shire

/-- Relation between `fold_many0` and its collecting form: folding is the
left fold of the collected element sequence. -/
theorem foldLoop_eq_collect (f : Parser α) (g : β → α → β) :
    ∀ (fuel : Nat) (input : List Char) (b : β),
      foldLoop f g fuel input b =
        match collectLoop f fuel input with
        | .ok l rest => .ok (l.foldl g b) rest
        | .err => .err
        | .panicked => .panicked := by
  intro fuel
  induction fuel with
  | zero => intro input b; rfl
  | succ fuel ih =>
    intro input b
    unfold foldLoop collectLoop
    cases hf : f input with
    | err => rfl
    | panicked => rfl
    | ok o i1 =>
      simp only
      by_cases hlen : (i1.length == input.length) = true
      · simp only [hlen, if_true]
      · rw [if_neg hlen, if_neg hlen, ih]
        cases collectLoop f fuel i1 <;> rfl

/-- The fold in the variables arm equals folding inserts over the collected
entry sequence. -/
theorem parseVariablesBlock_eq_collect (input : List Char) :
    parseVariablesBlock input =
      match collectVariablesBlock input with
      | .ok es rest => .ok (es.foldl (fun acc kv => hmInsert acc kv.1 kv.2) []) rest
      | .err => .err
      | .panicked => .panicked := by
  unfold parseVariablesBlock collectVariablesBlock foldMany0 collectMany0
  rw [foldLoop_eq_collect]
  cases collectLoop (terminated parse_variable pMultispace0) (input.length + 1) input <;> rfl

end Shire

namespace Shire

/-- Header input of scenario S3: the key `var1` is written twice. -/
def s3header : String :=
  "\n---\nvariables:\n  \"var1\": \"demo\"\n  \"var1\": 42\n  \"var2\": /.*.java/ \x7b grep(\"error.log\") | sort | xargs(\"rm\")\x7d\n---\n"

/-- Parsed record of scenario S3: `var1` holds only its last-written value. -/
def s3hole : HobbitHole :=
  { name := "", description := none, interaction := none, action_location := none,
    vars := [("var1", .integer 42),
             ("var2", .patternAction ".*.java"
               (.functions [("grep", ["error.log"]), ("sort", []), ("xargs", ["rm"])]))] }

/-- C9: duplicate variable keys keep the last-written value.  The variables
fold is the left fold of `HashMap::insert` over the parsed entry sequence
(first conjunct), such a fold binds every key to its last-written entry
(second conjunct), and on the concrete S3 header the twice-written `var1`
reads back its second value `42` while `var2` keeps its single value (last
conjuncts). -/
theorem variables_last_write_wins :
    (∀ input : List Char,
        parseVariablesBlock input =
          match collectVariablesBlock input with
          | .ok es rest => .ok (es.foldl (fun acc kv => hmInsert acc kv.1 kv.2) []) rest
          | .err => .err
          | .panicked => .panicked)
    ∧ (∀ (es : List (String × VariableTransform)) (k : String),
        hmLookup (es.foldl (fun acc kv => hmInsert acc kv.1 kv.2) []) k = lastEntry es k)
    ∧ parse_hobbit_hole (strChars s3header) = .ok s3hole []
    ∧ hmLookup s3hole.vars "var1" = some (.integer 42)
    ∧ hmLookup s3hole.vars "var2"
        = some (.patternAction ".*.java"
            (.functions [("grep", ["error.log"]), ("sort", []), ("xargs", ["rm"])])) := by
  refine ⟨parseVariablesBlock_eq_collect, ?_, rfl, rfl, rfl⟩
  intro es k
  rw [foldl_hmInsert_lookup]
  cases lastEntry es k <;> rfl

end Shire

namespace Shire

/-- Quoted rendering of one function argument. -/
def quoteArg (a : String) : List Char := '"' :: (a.data ++ ['"'])

/-- Rendering of the second and later arguments, each preceded by a comma. -/
def renderArgsTail : List String → List Char
  | [] => []
  | a :: as => ',' :: (quoteArg a ++ renderArgsTail as)

/-- Rendering of a comma-separated quoted argument list. -/
def renderArgs : List String → List Char
  | [] => []
  | a :: as => quoteArg a ++ renderArgsTail as

/-- Rendering of one pipeline function: bare name, or name with
parenthesized quoted arguments. -/
def renderFunc (f : String × List String) : List Char :=
  f.1.data ++ (match f.2 with
    | [] => []
    | _ => '(' :: (renderArgs f.2 ++ [')']))

/-- Rendering of the second and later pipeline functions, each preceded by
a spaced bar. -/
def renderPipeTail : List (String × List String) → List Char
  | [] => []
  | f :: fs => ' ' :: '|' :: ' ' :: (renderFunc f ++ renderPipeTail fs)

/-- Rendering of a bar-separated pipeline. -/
def renderPipe : List (String × List String) → List Char
  | [] => []
  | f :: fs => renderFunc f ++ renderPipeTail fs

/-- Rendering of a whole pattern-action rule `/re/ { f1 | ... | fn }`. -/
def renderPatternAction (re : String) (fs : List (String × List String)) : List Char :=
  '/' :: (re.data ++ '/' :: ' ' :: '\x7b' :: ' ' :: (renderPipe fs ++ [' ', '\x7d']))

/-- Well-formed function name: nonempty and alphanumeric. -/
def wfNameB (s : String) : Bool := !s.data.isEmpty && s.data.all isAlphanumericCh

/-- Well-formed quoted argument: nonempty and without a double quote. -/
def wfArgB (a : String) : Bool := !a.data.isEmpty && a.data.all (fun c => !(c == '"'))

/-- Well-formed pipeline function: well-formed name and arguments. -/
def wfFuncB (f : String × List String) : Bool := wfNameB f.1 && f.2.all wfArgB

/-- Well-formed regex literal: nonempty and without a slash. -/
def wfRegexB (re : String) : Bool := !re.data.isEmpty && re.data.all (fun c => !(c == '/'))

/-- Splitting off a fully-satisfying prefix when the next character (if any)
fails the predicate. -/
theorem spanP_append (p : Char → Bool) :
    ∀ (xs ys : List Char), (∀ c ∈ xs, p c = true) →
      (∀ d, ys.head? = some d → p d = false) →
      spanP p (xs ++ ys) = (xs, ys) := by
  intro xs
  induction xs with
  | nil =>
    intro ys _ h2
    cases ys with
    | nil => rfl
    | cons d t => simp [spanP, h2 d rfl]
  | cons x xs ih =>
    intro ys h1 h2
    have hx : p x = true := h1 x (by simp)
    simp [spanP, hx, ih ys (fun c hc => h1 c (by simp [hc])) h2]

/-- `take_while` on a satisfying prefix. -/
theorem pTakeWhile_append (p : Char → Bool) (xs ys : List Char)
    (h1 : ∀ c ∈ xs, p c = true) (h2 : ∀ d, ys.head? = some d → p d = false) :
    pTakeWhile p (xs ++ ys) = .ok xs ys := by
  unfold pTakeWhile
  rw [spanP_append p xs ys h1 h2]

/-- `is_not` on a nonempty prefix avoiding the forbidden set. -/
theorem pIsNot_append (bad : List Char) (xs ys : List Char) (hne : xs ≠ [])
    (h1 : ∀ c ∈ xs, bad.contains c = false)
    (h2 : ∀ d, ys.head? = some d → bad.contains d = true) :
    pIsNot bad (xs ++ ys) = .ok xs ys := by
  unfold pIsNot
  rw [spanP_append (fun c => !(bad.contains c)) xs ys
    (fun c hc => by show (!bad.contains c) = true; rw [h1 c hc]; rfl)
    (fun d hd => by show (!bad.contains d) = false; rw [h2 d hd]; rfl)]
  simp [hne]

/-- `multispace0` consumes nothing when the input does not start with
whitespace. -/
theorem pMultispace0_skip (ys : List Char)
    (h2 : ∀ d, ys.head? = some d → isMultispaceCh d = false) :
    pMultispace0 ys = .ok () ys := by
  unfold pMultispace0
  rw [show ys = [] ++ ys from rfl, spanP_append isMultispaceCh [] ys (by simp) (by simpa using h2)]
  rfl

/-- `multispace0` consumes a single leading space when the next character is
not whitespace. -/
theorem pMultispace0_space (ys : List Char)
    (h2 : ∀ d, ys.head? = some d → isMultispaceCh d = false) :
    pMultispace0 (' ' :: ys) = .ok () ys := by
  unfold pMultispace0
  rw [show (' ' :: ys) = [' '] ++ ys from rfl,
    spanP_append isMultispaceCh [' '] ys (by decide) h2]

/-- `tag` on its own text. -/
theorem ptag_append (ts rest : List Char) : ptag ts (ts ++ rest) = .ok () rest := by
  unfold ptag
  rw [if_pos (List.isPrefixOf_iff_prefix.mpr ⟨rest, rfl⟩), List.drop_left]

/-- `char` on a matching head. -/
theorem pchar_cons (c : Char) (rest : List Char) : pchar c (c :: rest) = .ok () rest := by
  simp [pchar]

/-- `char` on a mismatching head. -/
theorem pchar_ne (c d : Char) (h : ¬ d = c) (rest : List Char) :
    pchar c (d :: rest) = .err := by
  simp [pchar, h]

/-- An alphanumeric character is not whitespace. -/
theorem isMultispaceCh_eq_false_of_alnum {c : Char} (h : isAlphanumericCh c = true) :
    isMultispaceCh c = false := by
  simp only [isAlphanumericCh, Bool.or_eq_true, Bool.and_eq_true, decide_eq_true_eq] at h
  simp only [isMultispaceCh, Bool.or_eq_false_iff, beq_eq_false_iff_ne, Ne]
  omega

/-- Boolean disequality of a length with its strict increase. -/
theorem length_beq_add_false (n k : Nat) (h : k ≠ 0) : (n == n + k) = false := by
  simp only [beq_eq_false_iff_ne, Ne]
  omega

end Shire

namespace Shire

/-- Unpacking of a well-formed argument. -/
theorem wfArgB_spec {a : String} (h : wfArgB a = true) :
    a.data ≠ [] ∧ ∀ c ∈ a.data, (c == '"') = false := by
  constructor
  · intro hnil
    simp [wfArgB, hnil] at h
  · simp only [wfArgB, Bool.and_eq_true, List.all_eq_true] at h
    exact fun c hc => by simpa using h.2 c hc

/-- Parse of one rendered quoted argument, whatever follows. -/
theorem parse_quoted_item (a : String) (h : wfArgB a = true) (rest : List Char) :
    delimited (pchar '"') (pIsNot ['"']) (pchar '"') (quoteArg a ++ rest)
      = .ok a.data rest := by
  obtain ⟨hne, hq⟩ := wfArgB_spec h
  unfold delimited pbind
  rw [show quoteArg a ++ rest = '"' :: (a.data ++ ('"' :: rest)) by
    simp [quoteArg]]
  rw [pchar_cons]
  dsimp only
  rw [pIsNot_append ['"'] a.data ('"' :: rest) hne
    (fun c hc => by simpa using hq c hc) (fun d hd => by simp at hd; subst hd; simp)]
  dsimp only
  rw [pchar_cons]
  rfl

/-- Loop of the quoted-argument list: the remaining comma-led arguments are
appended in order. -/
theorem sepLoop_args (r : List Char) :
    ∀ (as : List String) (fuel : Nat) (acc : List (List Char)),
      (∀ a ∈ as, wfArgB a = true) → as.length + 1 ≤ fuel →
      sepLoop (pchar ',') (delimited (pchar '"') (pIsNot ['"']) (pchar '"')) fuel
        (renderArgsTail as ++ ')' :: r) acc
        = .ok (acc ++ as.map String.data) (')' :: r) := by
  intro as
  induction as with
  | nil =>
    intro fuel acc _ hf
    cases fuel with
    | zero => exact absurd hf (by omega)
    | succ fuel =>
      unfold sepLoop
      rw [show renderArgsTail [] ++ ')' :: r = ')' :: r from rfl]
      rw [pchar_ne ',' ')' (by decide)]
      simp
  | cons a as ih =>
    intro fuel acc h hf
    cases fuel with
    | zero => exact absurd hf (by omega)
    | succ fuel =>
      unfold sepLoop
      rw [show renderArgsTail (a :: as) ++ ')' :: r
          = ',' :: ((quoteArg a ++ (renderArgsTail as ++ ')' :: r))) by
        simp [renderArgsTail]]
      rw [pchar_cons]
      dsimp only
      rw [show ((quoteArg a ++ (renderArgsTail as ++ ')' :: r)).length ==
          (',' :: (quoteArg a ++ (renderArgsTail as ++ ')' :: r))).length) = false by
        rw [List.length_cons]
        exact length_beq_add_false _ 1 (by omega)]
      rw [if_neg Bool.false_ne_true]
      rw [parse_quoted_item a (h a (by simp)) (renderArgsTail as ++ ')' :: r)]
      dsimp only
      rw [ih fuel (acc ++ [a.data]) (fun x hx => h x (by simp [hx])) (by
        simp only [List.length_cons] at hf
        omega)]
      simp

end Shire

namespace Shire

/-- A rendered argument tail is at least as long as its argument count. -/
theorem renderArgsTail_length (as : List String) : as.length ≤ (renderArgsTail as).length := by
  induction as with
  | nil => simp [renderArgsTail]
  | cons a as ih => simp [renderArgsTail, quoteArg]; omega

/-- Parse of a whole rendered argument list up to the closing parenthesis. -/
theorem sepList0_args (as : List String) (h : ∀ a ∈ as, wfArgB a = true) (r : List Char) :
    sepList0 (pchar ',') (delimited (pchar '"') (pIsNot ['"']) (pchar '"'))
        (renderArgs as ++ ')' :: r)
      = .ok (as.map String.data) (')' :: r) := by
  cases as with
  | nil =>
    unfold sepList0 delimited pbind
    rw [show renderArgs [] ++ ')' :: r = ')' :: r from rfl]
    rw [pchar_ne '"' ')' (by decide)]
    rfl
  | cons a as =>
    unfold sepList0
    rw [show renderArgs (a :: as) ++ ')' :: r
        = quoteArg a ++ (renderArgsTail as ++ ')' :: r) by
      simp [renderArgs]]
    rw [parse_quoted_item a (h a (by simp)) (renderArgsTail as ++ ')' :: r)]
    dsimp only
    rw [sepLoop_args r as ((renderArgsTail as ++ ')' :: r).length + 1) [a.data]
      (fun x hx => h x (by simp [hx]))
      (by
        have := renderArgsTail_length as
        simp only [List.length_append]
        omega)]
    simp

end Shire

namespace Shire

/-- Rebuilding a string from its characters is the identity. -/
theorem mk_data (s : String) : String.mk s.data = s := rfl

/-- Round trip of a string list through character lists. -/
theorem map_mk_data (as : List String) : (as.map String.data).map String.mk = as := by
  induction as with
  | nil => rfl
  | cons a as ih => simp [ih, mk_data]

/-- Unpacking of a well-formed name. -/
theorem wfNameB_spec {s : String} (h : wfNameB s = true) :
    s.data ≠ [] ∧ ∀ c ∈ s.data, isAlphanumericCh c = true := by
  constructor
  · intro hnil
    simp [wfNameB, hnil] at h
  · simp only [wfNameB, Bool.and_eq_true, List.all_eq_true] at h
    exact h.2

/-- Unfolding lemma for `delimited` that can target a single occurrence. -/
theorem delimited_def {α β γ : Type} (p : Parser α) (q : Parser β) (r' : Parser γ) :
    delimited p q r' = pbind p fun _ => pbind q fun b => pbind r' fun _ => ppure b := rfl

/-- Running a sequenced parser when the first part succeeds. -/
theorem pbind_ok {α β : Type} {p : Parser α} {f : α → Parser β} {input : List Char}
    {a : α} {rest : List Char} (h : p input = .ok a rest) :
    pbind p f input = f a rest := by
  unfold pbind; rw [h]

/-- Running a sequenced parser when the first part fails. -/
theorem pbind_err {α β : Type} {p : Parser α} {f : α → Parser β} {input : List Char}
    (h : p input = .err) : pbind p f input = .err := by
  unfold pbind; rw [h]

/-- Running `opt` over a succeeding parser. -/
theorem popt_ok {α : Type} {p : Parser α} {input : List Char} {a : α} {rest : List Char}
    (h : p input = .ok a rest) : popt p input = .ok (some a) rest := by
  unfold popt; rw [h]

/-- Running `opt` over a failing parser backtracks. -/
theorem popt_err {α : Type} {p : Parser α} {input : List Char}
    (h : p input = .err) : popt p input = .ok none input := by
  unfold popt; rw [h]

/-- Parse of one rendered pipeline function followed by a space and either a
bar or the closing brace: the function comes back exactly, nothing beyond it
is consumed. -/
theorem parse_function_render (name : String) (args : List String)
    (hn : wfNameB name = true) (ha : ∀ a ∈ args, wfArgB a = true)
    (c : Char) (hc : c = '|' ∨ c = '\x7d') (r : List Char) :
    parse_function (renderFunc (name, args) ++ ' ' :: c :: r)
      = .ok (name, args) (' ' :: c :: r) := by
  obtain ⟨hne, hal⟩ := wfNameB_spec hn
  have hcnotMS : isMultispaceCh c = false := by
    rcases hc with h | h <;> subst h <;> decide
  have hcnotParen : ¬ c = '(' := by
    rcases hc with h | h <;> subst h <;> decide
  unfold parse_function
  cases args with
  | nil =>
    rw [show renderFunc (name, []) ++ ' ' :: c :: r = name.data ++ (' ' :: c :: r) by
      simp [renderFunc]]
    rw [pbind_ok (pTakeWhile_append isAlphanumericCh name.data (' ' :: c :: r) hal
      (by intro d hd; simp at hd; subst hd; decide))]
    have hopt : preceded pMultispace0
        (delimited (pchar '(')
          (sepList0 (pchar ',') (delimited (pchar '"') (pIsNot ['"']) (pchar '"')))
          (pchar ')')) (' ' :: c :: r) = .err := by
      unfold preceded
      rw [pbind_ok (pMultispace0_space (c :: r)
        (by intro d hd; simp at hd; subst hd; exact hcnotMS))]
      unfold delimited
      exact pbind_err (pchar_ne '(' c hcnotParen r)
    rw [pbind_ok (popt_err hopt)]
    rfl
  | cons a as =>
    rw [show renderFunc (name, a :: as) ++ ' ' :: c :: r
        = name.data ++ ('(' :: (renderArgs (a :: as) ++ ')' :: (' ' :: c :: r))) by
      simp [renderFunc]]
    rw [pbind_ok (pTakeWhile_append isAlphanumericCh name.data _ hal
      (by intro d hd; simp at hd; subst hd; decide))]
    have hopt : preceded pMultispace0
        (delimited (pchar '(')
          (sepList0 (pchar ',') (delimited (pchar '"') (pIsNot ['"']) (pchar '"')))
          (pchar ')'))
        ('(' :: (renderArgs (a :: as) ++ ')' :: (' ' :: c :: r)))
        = .ok ((a :: as).map String.data) (' ' :: c :: r) := by
      unfold preceded
      rw [pbind_ok (pMultispace0_skip _ (by intro d hd; simp at hd; subst hd; decide))]
      rw [delimited_def (pchar '(')]
      rw [pbind_ok (pchar_cons '(' _)]
      rw [pbind_ok (sepList0_args (a :: as) ha (' ' :: c :: r))]
      rw [pbind_ok (pchar_cons ')' _)]
      rfl
    rw [pbind_ok (popt_ok hopt)]
    show PRes.ok (String.mk name.data, ((a :: as).map String.data).map String.mk) _ = _
    rw [map_mk_data]

end Shire

namespace Shire

/-- Shape-generalized form of `parse_function_render`. -/
theorem parse_function_render' (name : String) (args : List String)
    (hn : wfNameB name = true) (ha : ∀ a ∈ args, wfArgB a = true) (rest : List Char)
    (hr : ∃ c r, (c = '|' ∨ c = '\x7d') ∧ rest = ' ' :: c :: r) :
    parse_function (renderFunc (name, args) ++ rest) = .ok (name, args) rest := by
  obtain ⟨c, r, hc, hrest⟩ := hr
  subst hrest
  exact parse_function_render name args hn ha c hc r

/-- The pipeline separator fails on the closing ` }`. -/
theorem pipeSep_err_close (r : List Char) : pipeSep (' ' :: '\x7d' :: r) = .err := by
  unfold pipeSep
  rw [delimited_def]
  rw [pbind_ok (pMultispace0_space ('\x7d' :: r) (by intro d hd; simp at hd; subst hd; decide))]
  apply pbind_err
  show ptag ['|'] ('\x7d' :: r) = .err
  unfold ptag
  rw [if_neg (by simp [List.isPrefixOf])]

/-- The pipeline separator ` | ` succeeds just before a function whose first
character is not whitespace. -/
theorem pipeSep_before_func (u : List Char)
    (hu : ∀ d, u.head? = some d → isMultispaceCh d = false) :
    pipeSep (' ' :: '|' :: ' ' :: u) = .ok () u := by
  unfold pipeSep
  rw [delimited_def]
  rw [pbind_ok (pMultispace0_space ('|' :: ' ' :: u) (by intro d hd; simp at hd; subst hd; decide))]
  rw [pbind_ok (show ptag ['|'] ('|' :: ' ' :: u) = .ok () (' ' :: u) from
    ptag_append ['|'] (' ' :: u))]
  rw [pbind_ok (pMultispace0_space u hu)]
  rfl

/-- A rendered function (and anything after it) starts with an alphanumeric
character, hence not whitespace. -/
theorem head_renderFunc_not_ms (name : String) (args : List String)
    (hn : wfNameB name = true) (Y : List Char) :
    ∀ d, (renderFunc (name, args) ++ Y).head? = some d → isMultispaceCh d = false := by
  obtain ⟨hne, hal⟩ := wfNameB_spec hn
  intro d hd
  cases hdata : name.data with
  | nil => exact absurd hdata hne
  | cons hc hrest =>
    simp only [renderFunc, hdata, List.cons_append, List.head?_cons, Option.some.injEq] at hd
    subst hd
    exact isMultispaceCh_eq_false_of_alnum (hal hc (by rw [hdata]; simp))

/-- A rendered pipeline tail is at least as long as its function count. -/
theorem renderPipeTail_length (fs : List (String × List String)) :
    fs.length ≤ (renderPipeTail fs).length := by
  induction fs with
  | nil => simp [renderPipeTail]
  | cons f fs ih => simp [renderPipeTail]; omega

/-- Loop of the pipeline list: the remaining bar-led functions are appended
in order, stopping at the closing ` }`. -/
theorem sepLoop_pipe (r : List Char) :
    ∀ (fs : List (String × List String)) (fuel : Nat) (acc : List (String × List String)),
      (∀ f ∈ fs, wfFuncB f = true) → fs.length + 1 ≤ fuel →
      sepLoop pipeSep parse_function fuel (renderPipeTail fs ++ ' ' :: '\x7d' :: r) acc
        = .ok (acc ++ fs) (' ' :: '\x7d' :: r) := by
  intro fs
  induction fs with
  | nil =>
    intro fuel acc _ hf
    cases fuel with
    | zero => exact absurd hf (by omega)
    | succ fuel =>
      unfold sepLoop
      rw [show renderPipeTail [] ++ ' ' :: '\x7d' :: r = ' ' :: '\x7d' :: r from rfl]
      rw [pipeSep_err_close]
      simp
  | cons f fs ih =>
    intro fuel acc h hf
    cases fuel with
    | zero => exact absurd hf (by omega)
    | succ fuel =>
      obtain ⟨name, args⟩ := f
      have hwff := h (name, args) (by simp)
      have hn : wfNameB name = true := by
        simp only [wfFuncB, Bool.and_eq_true] at hwff
        exact hwff.1
      have ha : ∀ a ∈ args, wfArgB a = true := by
        simp only [wfFuncB, Bool.and_eq_true, List.all_eq_true] at hwff
        exact hwff.2
      unfold sepLoop
      rw [show renderPipeTail ((name, args) :: fs) ++ ' ' :: '\x7d' :: r
          = ' ' :: '|' :: ' ' ::
              (renderFunc (name, args) ++ (renderPipeTail fs ++ ' ' :: '\x7d' :: r)) by
        simp [renderPipeTail]]
      rw [pipeSep_before_func _ (head_renderFunc_not_ms name args hn _)]
      dsimp only
      rw [show ((renderFunc (name, args) ++ (renderPipeTail fs ++ ' ' :: '\x7d' :: r)).length ==
          (' ' :: '|' :: ' ' ::
            (renderFunc (name, args) ++ (renderPipeTail fs ++ ' ' :: '\x7d' :: r))).length)
          = false by
        simp only [List.length_cons]
        exact length_beq_add_false _ 3 (by omega)]
      rw [if_neg Bool.false_ne_true]
      rw [parse_function_render' name args hn ha _ (by
        cases fs with
        | nil => exact ⟨'\x7d', r, Or.inr rfl, rfl⟩
        | cons g gs =>
          exact ⟨'|', ' ' :: (renderFunc g ++ (renderPipeTail gs ++ ' ' :: '\x7d' :: r)),
            Or.inl rfl, by simp [renderPipeTail]⟩)]
      dsimp only
      rw [ih fuel (acc ++ [(name, args)]) (fun x hx => h x (by simp [hx])) (by
        simp only [List.length_cons] at hf
        omega)]
      simp

end Shire

namespace Shire

/-- C7: parsing a rendered pattern-action rule `/re/ { f1 | ... | fn }`
returns exactly the pipeline `[f1, ..., fn]` in source order, each function
paired with its quoted arguments, consuming the whole input. -/
theorem parse_pattern_actions_renders_pipeline_in_order (re : String)
    (fs : List (String × List String)) (hre : wfRegexB re = true) (hne : fs ≠ [])
    (hwf : ∀ f ∈ fs, wfFuncB f = true) :
    parse_pattern_actions (renderPatternAction re fs)
      = .ok (.patternAction re (.functions fs)) [] := by
  have hre' : re.data ≠ [] ∧ ∀ c ∈ re.data, (c == '/') = false := by
    constructor
    · intro hnil; simp [wfRegexB, hnil] at hre
    · simp only [wfRegexB, Bool.and_eq_true, List.all_eq_true] at hre
      exact fun c hc => by simpa using hre.2 c hc
  obtain ⟨hrene, hreslash⟩ := hre'
  cases fs with
  | nil => exact absurd rfl hne
  | cons f fs' =>
    obtain ⟨name, args⟩ := f
    have hwff := hwf (name, args) (by simp)
    have hn : wfNameB name = true := by
      simp only [wfFuncB, Bool.and_eq_true] at hwff
      exact hwff.1
    have ha : ∀ a ∈ args, wfArgB a = true := by
      simp only [wfFuncB, Bool.and_eq_true, List.all_eq_true] at hwff
      exact hwff.2
    unfold parse_pattern_actions
    have hregex : delimited (ptag ['/']) (pIsNot ['/']) (ptag ['/'])
        (renderPatternAction re ((name, args) :: fs'))
        = .ok re.data
            (' ' :: '\x7b' :: ' ' :: (renderPipe ((name, args) :: fs') ++ [' ', '\x7d'])) := by
      rw [delimited_def]
      rw [show renderPatternAction re ((name, args) :: fs')
          = ['/'] ++ (re.data ++ ('/' :: ' ' :: '\x7b' :: ' ' ::
              (renderPipe ((name, args) :: fs') ++ [' ', '\x7d']))) by
        simp [renderPatternAction]]
      rw [pbind_ok (ptag_append ['/'] _)]
      rw [pbind_ok (pIsNot_append ['/'] re.data _ hrene
        (fun c hc => by simpa using hreslash c hc)
        (fun d hd => by simp at hd; subst hd; decide))]
      rw [pbind_ok (show ptag ['/'] ('/' :: ' ' :: '\x7b' :: ' ' ::
          (renderPipe ((name, args) :: fs') ++ [' ', '\x7d']))
          = .ok () (' ' :: '\x7b' :: ' ' :: (renderPipe ((name, args) :: fs') ++ [' ', '\x7d']))
          from ptag_append ['/'] _)]
      rfl
    rw [pbind_ok hregex]
    have hopen : braceOpen
        (' ' :: '\x7b' :: ' ' :: (renderPipe ((name, args) :: fs') ++ [' ', '\x7d']))
        = .ok () (renderPipe ((name, args) :: fs') ++ [' ', '\x7d']) := by
      unfold braceOpen
      rw [pbind_ok (pMultispace0_space _ (by intro d hd; simp at hd; subst hd; decide))]
      rw [pbind_ok (show ptag ['\x7b']
          ('\x7b' :: (' ' :: (renderPipe ((name, args) :: fs') ++ [' ', '\x7d'])))
          = .ok () (' ' :: (renderPipe ((name, args) :: fs') ++ [' ', '\x7d']))
          from ptag_append ['\x7b'] _)]
      rw [show renderPipe ((name, args) :: fs') ++ [' ', '\x7d']
          = renderFunc (name, args) ++ (renderPipeTail fs' ++ [' ', '\x7d']) by
        simp [renderPipe]]
      exact pMultispace0_space _ (head_renderFunc_not_ms name args hn _)
    have hlist : sepList0 pipeSep parse_function
        (renderPipe ((name, args) :: fs') ++ [' ', '\x7d'])
        = .ok ((name, args) :: fs') (' ' :: '\x7d' :: []) := by
      unfold sepList0
      rw [show renderPipe ((name, args) :: fs') ++ [' ', '\x7d']
          = renderFunc (name, args) ++ (renderPipeTail fs' ++ ' ' :: '\x7d' :: ([] : List Char)) by
        simp [renderPipe]]
      rw [parse_function_render' name args hn ha _ (by
        cases fs' with
        | nil => exact ⟨'\x7d', [], Or.inr rfl, rfl⟩
        | cons g gs =>
          exact ⟨'|', ' ' :: (renderFunc g ++ (renderPipeTail gs ++ ' ' :: '\x7d' :: [])),
            Or.inl rfl, by simp [renderPipeTail]⟩)]
      dsimp only
      rw [sepLoop_pipe [] fs' ((renderPipeTail fs' ++ ' ' :: '\x7d' :: ([] : List Char)).length + 1)
        [(name, args)] (fun x hx => hwf x (by simp [hx])) (by
          have := renderPipeTail_length fs'
          simp only [List.length_append, List.length_cons, List.length_nil]
          omega)]
      simp
    have hclose : braceClose (' ' :: '\x7d' :: []) = .ok () [] := by
      unfold braceClose
      rw [pbind_ok (pMultispace0_space _ (by intro d hd; simp at hd; subst hd; decide))]
      rw [pbind_ok (show ptag ['\x7d'] ('\x7d' :: ([] : List Char)) = .ok () []
        from ptag_append ['\x7d'] [])]
      exact pMultispace0_skip [] (by intro d hd; simp at hd)
    rw [pbind_ok (show delimited braceOpen (sepList0 pipeSep parse_function) braceClose
        (' ' :: '\x7b' :: ' ' :: (renderPipe ((name, args) :: fs') ++ [' ', '\x7d']))
        = .ok ((name, args) :: fs') [] by
      rw [delimited_def]
      rw [pbind_ok hopen, pbind_ok hlist, pbind_ok hclose]
      rfl)]
    show PRes.ok (VariableTransform.patternAction (String.mk re.data)
      (.functions ((name, args) :: fs'))) [] = _
    rw [mk_data]

end Shire

namespace Shire

/-- Concrete witness for the pipeline-order claim: the S2 input
`/.*.java/ { grep("error.log") | sort | xargs("rm") }` satisfies the
well-formedness hypotheses and parses to the pipeline
`[(grep, [error.log]), (sort, []), (xargs, [rm])]` in source order. -/
theorem parse_pattern_actions_renders_pipeline_in_order_witness :
    wfRegexB ".*.java" = true
    ∧ ([("grep", ["error.log"]), ("sort", []), ("xargs", ["rm"])]
        : List (String × List String)) ≠ []
    ∧ (∀ f ∈ ([("grep", ["error.log"]), ("sort", []), ("xargs", ["rm"])]
        : List (String × List String)), wfFuncB f = true)
    ∧ parse_pattern_actions
        (strChars "/.*.java/ \x7b grep(\"error.log\") | sort | xargs(\"rm\") \x7d")
      = .ok (.patternAction ".*.java"
          (.functions [("grep", ["error.log"]), ("sort", []), ("xargs", ["rm"])])) [] := by
  refine ⟨by decide, by decide, by decide, ?_⟩
  have h := parse_pattern_actions_renders_pipeline_in_order ".*.java"
    [("grep", ["error.log"]), ("sort", []), ("xargs", ["rm"])]
    (by decide) (by decide) (by decide)
  have e : renderPatternAction ".*.java"
      [("grep", ["error.log"]), ("sort", []), ("xargs", ["rm"])]
      = strChars "/.*.java/ \x7b grep(\"error.log\") | sort | xargs(\"rm\") \x7d" := rfl
  rw [e] at h
  exact h

end Shire
